import Mathlib

/-!
Verification of the LiveStation stateless credential subsystem
(`src/lib/username-policy.ts`): token issuance/validation (session,
email-verification, reset-password), password hashing/verification, the
origin guard and secret resolution.

Strings are modelled as `List Char`; Node `Buffer` byte strings are
`List Nat` with entries `< 256`.

Cryptographic library primitives that live outside the repository are
parameters of the model: HMAC-SHA256 (`sign`), SHA-256 (`sha256`) and
scrypt are opaque deterministic functions; `new URL(..).host` is an
opaque partial function (`parseUrlHost`).  Everything the repository
itself does — base64url, JSON serialisation/parsing, splitting, trimming,
field checks, expiry checks — is implemented concretely below, translated
from the TypeScript source.
-/

namespace LiveStation

/-! ### JavaScript string helpers -/

/-- JS `String.prototype.split(sep)` for a single-character separator:
splits at every occurrence, keeping empty segments, and returns `[[]]`
on the empty string (JS returns `[""]`). -/
def splitCh (c : Char) : List Char → List (List Char)
  | [] => [[]]
  | x :: xs =>
    if x = c then [] :: splitCh c xs
    else
      match splitCh c xs with
      | s :: rest => (x :: s) :: rest
      | [] => [[x]]

/-- Whitespace recognised by `String.prototype.trim` (the code points that
can actually occur in the headers and configuration values modelled here). -/
def isJsWhitespace (c : Char) : Bool :=
  c = ' ' ∨ c = '\t' ∨ c = '\n' ∨ c = '\r' ∨ c.toNat = 0x0B ∨ c.toNat = 0x0C ∨
    c.toNat = 0xA0 ∨ c.toNat = 0xFEFF

/-- JS `String.prototype.trim`. -/
def jsTrim (s : List Char) : List Char :=
  ((s.dropWhile isJsWhitespace).reverse.dropWhile isJsWhitespace).reverse

/-- JS `String.prototype.toLowerCase` (the source only lowercases ASCII
host names, e-mail addresses and user names, where the JS full Unicode
lowering and the per-character ASCII lowering agree). -/
def jsLower (s : List Char) : List Char :=
  s.map Char.toLower

theorem splitCh_ne_nil (c : Char) (s : List Char) : splitCh c s ≠ [] := by
  induction s with
  | nil => simp [splitCh]
  | cons x xs ih =>
    simp only [splitCh]
    split
    · simp
    · cases h : splitCh c xs with
      | nil => exact absurd h ih
      | cons s rest => simp

/-- Splitting distributes over an explicit separator occurrence. -/
theorem splitCh_append_sep (c : Char) (a b : List Char) :
    splitCh c (a ++ c :: b) = splitCh c a ++ splitCh c b := by
  induction a with
  | nil => simp [splitCh]
  | cons x xs ih =>
    rw [List.cons_append]
    by_cases hx : x = c
    · simp only [splitCh, if_pos hx, ih, List.cons_append]
    · simp only [splitCh, if_neg hx, ih]
      cases h : splitCh c xs with
      | nil => exact absurd h (splitCh_ne_nil c xs)
      | cons s rest => simp

/-- Splitting a separator-free string returns that single segment. -/
theorem splitCh_of_not_mem (c : Char) (a : List Char) (h : c ∉ a) :
    splitCh c a = [a] := by
  induction a with
  | nil => rfl
  | cons x xs ih =>
    simp only [List.mem_cons, not_or] at h
    simp only [splitCh]
    rw [if_neg (by exact fun hx => h.1 hx.symm), ih h.2]

/-! ### UTF-8 (Node `Buffer.from(s, "utf8")` and back) -/

/-- UTF-8 encoding of one code point. -/
def utf8EncodeChar (u : Nat) : List Nat :=
  if u < 0x80 then [u]
  else if u < 0x800 then [0xC0 + u / 64, 0x80 + u % 64]
  else if u < 0x10000 then [0xE0 + u / 4096, 0x80 + u / 64 % 64, 0x80 + u % 64]
  else [0xF0 + u / 262144, 0x80 + u / 4096 % 64, 0x80 + u / 64 % 64, 0x80 + u % 64]

/-- UTF-8 encoding of a string. -/
def utf8Encode (s : List Char) : List Nat :=
  s.flatMap (fun c => utf8EncodeChar c.toNat)

/-- Incremental UTF-8 decoder; the state is `some (acc, k)` while `k`
continuation bytes of a multi-byte sequence are still expected.  Strict on
malformed sequences (`none` where Node substitutes U+FFFD — both paths
make the JSON stage of token verification fail, so verification verdicts
agree). -/
def utf8DecodeAux : Option (Nat × Nat) → List Nat → Option (List Char)
  | none, [] => some []
  | some _, [] => none
  | none, b :: rest =>
    if b < 0x80 then (utf8DecodeAux none rest).map (fun cs => Char.ofNat b :: cs)
    else if b < 0xC0 then none
    else if b < 0xE0 then utf8DecodeAux (some (b - 0xC0, 1)) rest
    else if b < 0xF0 then utf8DecodeAux (some (b - 0xE0, 2)) rest
    else if b < 0xF8 then utf8DecodeAux (some (b - 0xF0, 3)) rest
    else none
  | some (acc, k), b :: rest =>
    if 0x80 ≤ b ∧ b < 0xC0 then
      if k ≤ 1 then
        (utf8DecodeAux none rest).map (fun cs => Char.ofNat (acc * 64 + (b - 0x80)) :: cs)
      else utf8DecodeAux (some (acc * 64 + (b - 0x80), k - 1)) rest
    else none

/-- UTF-8 decoding of a byte string. -/
def utf8Decode (l : List Nat) : Option (List Char) := utf8DecodeAux none l

theorem char_toNat_lt (c : Char) : c.toNat < 0x110000 := by
  have hval := c.valid
  rw [UInt32.isValidChar, Nat.isValidChar] at hval
  show c.val.toNat < 0x110000
  omega

theorem utf8EncodeChar_lt_256 (u : Nat) (hu : u < 0x110000) :
    ∀ b ∈ utf8EncodeChar u, b < 256 := by
  intro b hb
  unfold utf8EncodeChar at hb
  split at hb
  · simp at hb; omega
  · split at hb
    · simp at hb
      rcases hb with h | h <;> omega
    · split at hb
      · simp at hb
        rcases hb with h | h | h <;> omega
      · simp at hb
        rcases hb with h | h | h | h <;> omega

theorem utf8Encode_lt_256 (s : List Char) : ∀ b ∈ utf8Encode s, b < 256 := by
  intro b hb
  simp only [utf8Encode, List.mem_flatMap] at hb
  obtain ⟨c, _, hb⟩ := hb
  exact utf8EncodeChar_lt_256 c.toNat (char_toNat_lt c) b hb

theorem utf8DecodeAux_encodeChar (c : Char) (rest : List Nat) :
    utf8DecodeAux none (utf8EncodeChar c.toNat ++ rest) =
      (utf8DecodeAux none rest).map (fun cs => c :: cs) := by
  have hlt : c.toNat < 0x110000 := char_toNat_lt c
  unfold utf8EncodeChar
  by_cases hA : c.toNat < 0x80
  · rw [if_pos hA]
    simp only [List.append_eq, List.cons_append, List.nil_append, utf8DecodeAux, if_pos hA,
      Char.ofNat_toNat]
  · rw [if_neg hA]
    by_cases hB : c.toNat < 0x800
    · rw [if_pos hB]
      simp only [List.append_eq, List.cons_append, List.nil_append, utf8DecodeAux]
      rw [if_neg (by omega), if_neg (by omega), if_pos (by omega),
        if_pos (by omega : 0x80 ≤ 0x80 + c.toNat % 64 ∧ 0x80 + c.toNat % 64 < 0xC0),
        if_pos (by omega),
        show (0xC0 + c.toNat / 64 - 0xC0) * 64 + (0x80 + c.toNat % 64 - 0x80) = c.toNat by omega,
        Char.ofNat_toNat]
    · rw [if_neg hB]
      by_cases hC : c.toNat < 0x10000
      · rw [if_pos hC]
        simp only [List.append_eq, List.cons_append, List.nil_append, utf8DecodeAux]
        rw [if_neg (by omega), if_neg (by omega), if_neg (by omega), if_pos (by omega),
          if_pos (by omega : 0x80 ≤ 0x80 + c.toNat / 64 % 64 ∧ 0x80 + c.toNat / 64 % 64 < 0xC0),
          if_neg (by omega),
          if_pos (by omega : 0x80 ≤ 0x80 + c.toNat % 64 ∧ 0x80 + c.toNat % 64 < 0xC0),
          if_pos (by omega),
          show ((0xE0 + c.toNat / 4096 - 0xE0) * 64 + (0x80 + c.toNat / 64 % 64 - 0x80)) * 64 +
              (0x80 + c.toNat % 64 - 0x80) = c.toNat by omega,
          Char.ofNat_toNat]
      · rw [if_neg hC]
        simp only [List.append_eq, List.cons_append, List.nil_append, utf8DecodeAux]
        rw [if_neg (by omega), if_neg (by omega), if_neg (by omega), if_neg (by omega),
          if_pos (by omega),
          if_pos
            (by omega : 0x80 ≤ 0x80 + c.toNat / 4096 % 64 ∧ 0x80 + c.toNat / 4096 % 64 < 0xC0),
          if_neg (by omega),
          if_pos (by omega : 0x80 ≤ 0x80 + c.toNat / 64 % 64 ∧ 0x80 + c.toNat / 64 % 64 < 0xC0),
          if_neg (by omega),
          if_pos (by omega : 0x80 ≤ 0x80 + c.toNat % 64 ∧ 0x80 + c.toNat % 64 < 0xC0),
          if_pos (by omega),
          show (((0xF0 + c.toNat / 262144 - 0xF0) * 64 + (0x80 + c.toNat / 4096 % 64 - 0x80)) *
              64 + (0x80 + c.toNat / 64 % 64 - 0x80)) * 64 + (0x80 + c.toNat % 64 - 0x80) =
              c.toNat by omega,
          Char.ofNat_toNat]

/-- UTF-8 round trip. -/
theorem utf8Decode_encode (s : List Char) : utf8Decode (utf8Encode s) = some s := by
  induction s with
  | nil => rfl
  | cons c cs ih =>
    show utf8DecodeAux none (utf8EncodeChar c.toNat ++ utf8Encode cs) = some (c :: cs)
    rw [utf8DecodeAux_encodeChar c, show utf8DecodeAux none (utf8Encode cs) = some cs from ih]
    rfl

theorem utf8Encode_injective {a b : List Char} (h : utf8Encode a = utf8Encode b) : a = b := by
  have ha := utf8Decode_encode a
  rw [h, utf8Decode_encode b] at ha
  exact (Option.some_injective _ ha).symm

/-! ### base64url (Node `Buffer.prototype.toString("base64url")` and
`Buffer.from(s, "base64url")`) -/

def base64urlAlphabet : List Char :=
  "ABCDEFGHIJKLMNOPQRSTUVWXYZabcdefghijklmnopqrstuvwxyz0123456789-_".data

def sixToChar (n : Nat) : Char := base64urlAlphabet.getD n 'A'

def charToSix (c : Char) : Option Nat := base64urlAlphabet.findIdx? (· = c)

/-- Unpadded base64url encoding of a byte string. -/
def b64Encode : List Nat → List Char
  | [] => []
  | [a] => [sixToChar (a / 4), sixToChar (a % 4 * 16)]
  | [a, b] => [sixToChar (a / 4), sixToChar (a % 4 * 16 + b / 16), sixToChar (b % 16 * 4)]
  | a :: b :: d :: rest =>
    sixToChar (a / 4) :: sixToChar (a % 4 * 16 + b / 16) :: sixToChar (b % 16 * 4 + d / 64) ::
      sixToChar (d % 64) :: b64Encode rest

/-- Unpadded base64url decoding (strict on characters outside the
alphabet, where Node skips them; both paths make the JSON stage of token
verification fail on such segments, so verification verdicts agree). -/
def b64Decode : List Char → Option (List Nat)
  | [] => some []
  | [_] => none
  | [c1, c2] =>
    (charToSix c1).bind fun s1 =>
      (charToSix c2).map fun s2 => [s1 * 4 + s2 / 16]
  | [c1, c2, c3] =>
    (charToSix c1).bind fun s1 =>
      (charToSix c2).bind fun s2 =>
        (charToSix c3).map fun s3 => [s1 * 4 + s2 / 16, s2 % 16 * 16 + s3 / 4]
  | c1 :: c2 :: c3 :: c4 :: rest =>
    (charToSix c1).bind fun s1 =>
      (charToSix c2).bind fun s2 =>
        (charToSix c3).bind fun s3 =>
          (charToSix c4).bind fun s4 =>
            (b64Decode rest).map fun bs =>
              (s1 * 4 + s2 / 16) :: (s2 % 16 * 16 + s3 / 4) :: (s3 % 4 * 64 + s4) :: bs

theorem charToSix_sixToChar : ∀ n < 64, charToSix (sixToChar n) = some n := by decide

/-- base64url round trip on byte strings. -/
theorem b64Decode_encode : ∀ (bs : List Nat), (∀ b ∈ bs, b < 256) →
    b64Decode (b64Encode bs) = some bs
  | [], _ => rfl
  | [a], h => by
    have ha : a < 256 := h a (by simp)
    rw [b64Encode, b64Decode, charToSix_sixToChar _ (by omega), charToSix_sixToChar _ (by omega)]
    simp only [Option.some_bind, Option.map_some', Option.some.injEq, List.cons.injEq, and_true]
    omega
  | [a, b], h => by
    have ha : a < 256 := h a (by simp)
    have hb : b < 256 := h b (by simp)
    rw [b64Encode, b64Decode, charToSix_sixToChar _ (by omega), charToSix_sixToChar _ (by omega),
      charToSix_sixToChar _ (by omega)]
    simp only [Option.some_bind, Option.map_some', Option.some.injEq, List.cons.injEq, and_true]
    omega
  | a :: b :: d :: rest, h => by
    have ha : a < 256 := h a (by simp)
    have hb : b < 256 := h b (by simp)
    have hd : d < 256 := h d (by simp)
    have ih := b64Decode_encode rest (fun x hx => h x (by simp [hx]))
    rw [b64Encode, b64Decode, charToSix_sixToChar _ (by omega), charToSix_sixToChar _ (by omega),
      charToSix_sixToChar _ (by omega), charToSix_sixToChar _ (by omega)]
    simp only [Option.some_bind, ih, Option.map_some', Option.some.injEq, List.cons.injEq]
    refine ⟨by omega, by omega, by omega, trivial⟩

theorem sixToChar_ne_dot (n : Nat) : sixToChar n ≠ '.' := by
  by_cases h : n < 64
  · revert h
    revert n
    decide
  · have hlen : base64urlAlphabet.length = 64 := by decide
    rw [sixToChar, List.getD_eq_default _ _ (by omega)]
    decide

theorem b64Encode_ne_nil : ∀ (bs : List Nat), bs ≠ [] → b64Encode bs ≠ []
  | [], h => absurd rfl h
  | [a], _ => by rw [b64Encode]; simp
  | [a, b], _ => by rw [b64Encode]; simp
  | a :: b :: d :: rest, _ => by rw [b64Encode]; simp

theorem dot_not_mem_b64Encode : ∀ (bs : List Nat), '.' ∉ b64Encode bs
  | [] => by rw [b64Encode]; simp
  | [a] => by
    rw [b64Encode]
    simp only [List.mem_cons, List.not_mem_nil, or_false]
    rintro (h | h) <;> exact sixToChar_ne_dot _ h.symm
  | [a, b] => by
    rw [b64Encode]
    simp only [List.mem_cons, List.not_mem_nil, or_false]
    rintro (h | h | h) <;> exact sixToChar_ne_dot _ h.symm
  | a :: b :: d :: rest => by
    rw [b64Encode]
    simp only [List.mem_cons]
    rintro (h | h | h | h | h)
    · exact sixToChar_ne_dot _ h.symm
    · exact sixToChar_ne_dot _ h.symm
    · exact sixToChar_ne_dot _ h.symm
    · exact sixToChar_ne_dot _ h.symm
    · exact dot_not_mem_b64Encode rest h

/-! ### hex (Node `Buffer.prototype.toString("hex")` and `Buffer.from(s, "hex")`) -/

def hexDigitChar (n : Nat) : Char := "0123456789abcdef".data.getD n '0'

/-- Node `Buffer.prototype.toString("hex")`. -/
def bytesToHex : List Nat → List Char
  | [] => []
  | b :: rest => hexDigitChar (b / 16) :: hexDigitChar (b % 16) :: bytesToHex rest

def hexVal (c : Char) : Option Nat :=
  if '0' ≤ c ∧ c ≤ '9' then some (c.toNat - '0'.toNat)
  else if 'a' ≤ c ∧ c ≤ 'f' then some (c.toNat - 'a'.toNat + 10)
  else if 'A' ≤ c ∧ c ≤ 'F' then some (c.toNat - 'A'.toNat + 10)
  else none

/-- Node `Buffer.from(s, "hex")`: consumes pairs of hex digits, stopping at the
first invalid pair (a trailing odd character is dropped). -/
def hexDecode : List Char → List Nat
  | c1 :: c2 :: rest =>
    match hexVal c1, hexVal c2 with
    | some h, some l => (h * 16 + l) :: hexDecode rest
    | _, _ => []
  | _ => []

theorem hexVal_hexDigitChar : ∀ n < 16, hexVal (hexDigitChar n) = some n := by decide

theorem hexDecode_bytesToHex : ∀ (bs : List Nat), (∀ b ∈ bs, b < 256) →
    hexDecode (bytesToHex bs) = bs
  | [], _ => rfl
  | b :: rest, h => by
    have hb : b < 256 := h b (by simp)
    have ih := hexDecode_bytesToHex rest (fun x hx => h x (by simp [hx]))
    rw [bytesToHex, hexDecode, hexVal_hexDigitChar _ (by omega), hexVal_hexDigitChar _ (by omega)]
    show (b / 16 * 16 + b % 16) :: hexDecode (bytesToHex rest) = b :: rest
    rw [ih, show b / 16 * 16 + b % 16 = b by omega]

theorem colon_not_mem_hexDigitChar (n : Nat) : hexDigitChar n ≠ ':' := by
  by_cases h : n < 16
  · revert h; revert n; decide
  · have hlen : "0123456789abcdef".data.length = 16 := by decide
    rw [hexDigitChar, List.getD_eq_default _ _ (by omega)]
    decide

theorem colon_not_mem_bytesToHex : ∀ (bs : List Nat), ':' ∉ bytesToHex bs
  | [] => by rw [bytesToHex]; simp
  | b :: rest => by
    rw [bytesToHex]
    simp only [List.mem_cons]
    rintro (h | h | h)
    · exact colon_not_mem_hexDigitChar _ h.symm
    · exact colon_not_mem_hexDigitChar _ h.symm
    · exact colon_not_mem_bytesToHex rest h

/-! ### JSON values

The repository serialises only flat objects whose values are strings and
integers, so the JSON model is restricted to that fragment: primitives
(`null`, booleans, integer numbers, strings) and one level of object
nesting.  The parser rejects what falls outside the fragment (arrays,
nested objects, fractional/exponent numbers, `\uXXXX` escapes denoting
surrogates) where `JSON.parse` would accept it; every token the repository
issues, and every concrete token considered in the theorems below, stays
inside the fragment. -/

inductive JVal where
  | null : JVal
  | bool (b : Bool) : JVal
  | num (n : Int) : JVal
  | str (s : List Char) : JVal
deriving DecidableEq

inductive Json where
  | prim (v : JVal) : Json
  | obj (members : List (List Char × JVal)) : Json
deriving DecidableEq

/-! #### Decimal digits -/

def digitVal (c : Char) : Nat := c.toNat - 48

/-- Decimal digits of `n`, most significant first, prepended to `acc`;
`fuel ≥ n` guarantees enough iterations. -/
def natToCharsAux : Nat → Nat → List Char → List Char
  | _, 0, acc => acc
  | 0, _ + 1, acc => acc
  | f + 1, n + 1, acc =>
    natToCharsAux f ((n + 1) / 10) (Char.ofNat (48 + (n + 1) % 10) :: acc)

def natToChars (n : Nat) : List Char :=
  if n = 0 then ['0'] else natToCharsAux n n []

/-- Decimal rendering of an integer (`JSON.stringify` of an integral
number within double precision). -/
def intToChars (i : Int) : List Char :=
  if i < 0 then '-' :: natToChars i.natAbs else natToChars i.toNat

/-- Consume leading decimal digits, accumulating their value. -/
def readDigits : Nat → List Char → Nat × List Char
  | acc, [] => (acc, [])
  | acc, c :: rest =>
    if c.isDigit then readDigits (acc * 10 + digitVal c) rest else (acc, c :: rest)

def valDigits (a : Nat) (ds : List Char) : Nat :=
  ds.foldl (fun x c => x * 10 + digitVal c) a

/-! #### String escaping (`JSON.stringify` string literals) -/

/-- How `JSON.stringify` renders one character inside a string literal. -/
def escapeChar (c : Char) : List Char :=
  if c = '"' then ['\\', '"']
  else if c = '\\' then ['\\', '\\']
  else if c.toNat = 8 then ['\\', 'b']
  else if c.toNat = 9 then ['\\', 't']
  else if c.toNat = 10 then ['\\', 'n']
  else if c.toNat = 12 then ['\\', 'f']
  else if c.toNat = 13 then ['\\', 'r']
  else if c.toNat < 0x20 then
    ['\\', 'u', '0', '0', hexDigitChar (c.toNat / 16), hexDigitChar (c.toNat % 16)]
  else [c]

def escapeStr (s : List Char) : List Char := s.flatMap escapeChar

def strLit (s : List Char) : List Char := '"' :: escapeStr s ++ ['"']

/-! #### Serialisation (`JSON.stringify`, no-indent form) -/

def stringifyJVal : JVal → List Char
  | .null => "null".data
  | .bool true => "true".data
  | .bool false => "false".data
  | .num n => intToChars n
  | .str s => strLit s

def stringifyMembers : List (List Char × JVal) → List Char
  | [] => []
  | [(k, v)] => strLit k ++ ':' :: stringifyJVal v
  | (k, v) :: rest => strLit k ++ ':' :: stringifyJVal v ++ ',' :: stringifyMembers rest

def stringifyJson : Json → List Char
  | .prim v => stringifyJVal v
  | .obj ms => '{' :: stringifyMembers ms ++ ['}']

/-! #### Parsing (`JSON.parse` on the fragment) -/

/-- JSON insignificant whitespace. -/
def skipWs : List Char → List Char
  | [] => []
  | c :: rest =>
    if c = ' ' ∨ c = '\t' ∨ c = '\n' ∨ c = '\r' then skipWs rest else c :: rest

/-- Consume an expected literal character sequence. -/
def dropLit : List Char → List Char → Option (List Char)
  | [], s => some s
  | _ :: _, [] => none
  | p :: ps, c :: rest => if c = p then dropLit ps rest else none

/-- State of the string-literal scanner: inside the literal, after a
backslash, or inside a `\uXXXX` escape with `k` hex digits still expected. -/
inductive StrState where
  | normal : StrState
  | escape : StrState
  | hex (k : Nat) (acc : Nat) : StrState

/-- Scan a string literal body up to its closing quote, undoing
`JSON.stringify` escapes; rejects unescaped control characters as
`JSON.parse` does. -/
def parseStringAux : StrState → List Char → Option (List Char × List Char)
  | _, [] => none
  | .normal, c :: rest =>
    if c = '"' then some ([], rest)
    else if c = '\\' then parseStringAux .escape rest
    else if c.toNat < 0x20 then none
    else (parseStringAux .normal rest).map (fun p => (c :: p.1, p.2))
  | .escape, e :: rest =>
    if e = '"' then (parseStringAux .normal rest).map (fun p => ('"' :: p.1, p.2))
    else if e = '\\' then (parseStringAux .normal rest).map (fun p => ('\\' :: p.1, p.2))
    else if e = '/' then (parseStringAux .normal rest).map (fun p => ('/' :: p.1, p.2))
    else if e = 'b' then (parseStringAux .normal rest).map (fun p => (Char.ofNat 8 :: p.1, p.2))
    else if e = 'f' then (parseStringAux .normal rest).map (fun p => (Char.ofNat 12 :: p.1, p.2))
    else if e = 'n' then (parseStringAux .normal rest).map (fun p => ('\n' :: p.1, p.2))
    else if e = 'r' then (parseStringAux .normal rest).map (fun p => (Char.ofNat 13 :: p.1, p.2))
    else if e = 't' then (parseStringAux .normal rest).map (fun p => ('\t' :: p.1, p.2))
    else if e = 'u' then parseStringAux (.hex 4 0) rest
    else none
  | .hex k acc, c :: rest =>
    match hexVal c with
    | some v =>
      if k ≤ 1 then
        if 0xD800 ≤ acc * 16 + v ∧ acc * 16 + v < 0xE000 then none
        else
          (parseStringAux .normal rest).map (fun p => (Char.ofNat (acc * 16 + v) :: p.1, p.2))
      else parseStringAux (.hex (k - 1) (acc * 16 + v)) rest
    | none => none

/-- Parse a number of the fragment: an optionally `-`-signed decimal
integer. -/
def parseNumber : List Char → Option (Int × List Char)
  | [] => none
  | c :: rest =>
    if c = '-' then
      match readDigits 0 rest with
      | (v, rest2) =>
        match rest with
        | d :: _ => if d.isDigit then some (-(v : Int), rest2) else none
        | [] => none
    else if c.isDigit then
      match readDigits 0 (c :: rest) with
      | (v, rest2) => some ((v : Int), rest2)
    else none

def parsePrimCore : List Char → Option (JVal × List Char)
  | [] => none
  | c :: rest =>
    if c = '"' then (parseStringAux .normal rest).map (fun p => (JVal.str p.1, p.2))
    else if c = 't' then (dropLit "rue".data rest).map (fun r => (JVal.bool true, r))
    else if c = 'f' then (dropLit "alse".data rest).map (fun r => (JVal.bool false, r))
    else if c = 'n' then (dropLit "ull".data rest).map (fun r => (JVal.null, r))
    else (parseNumber (c :: rest)).map (fun p => (JVal.num p.1, p.2))

/-- Parse a primitive value of the fragment. -/
def parsePrim (s : List Char) : Option (JVal × List Char) :=
  parsePrimCore (skipWs s)

/-- Parse a non-empty member list of a flat object, ending at the closing
brace.  Each step consumes at least one character, so fuel larger than the
input length is enough. -/
def parseMembersAux : Nat → List Char → Option (List (List Char × JVal) × List Char)
  | 0, _ => none
  | f + 1, s =>
    let t := skipWs s
    if t.head? = some '"' then
      (parseStringAux .normal t.tail).bind fun kp =>
        let t2 := skipWs kp.2
        if t2.head? = some ':' then
          (parsePrim t2.tail).bind fun vp =>
            let t3 := skipWs vp.2
            if t3.head? = some ',' then
              (parseMembersAux f t3.tail).map (fun mp => ((kp.1, vp.1) :: mp.1, mp.2))
            else if t3.head? = some '}' then some ([(kp.1, vp.1)], t3.tail)
            else none
        else none
    else none

/-- Parse one JSON value of the fragment. -/
def parseTop (s : List Char) : Option (Json × List Char) :=
  let t := skipWs s
  if t.head? = some '{' then
    let t2 := skipWs t.tail
    if t2.head? = some '}' then some (Json.obj [], t2.tail)
    else (parseMembersAux (t.tail.length + 1) t.tail).map (fun p => (Json.obj p.1, p.2))
  else (parsePrim s).map (fun p => (Json.prim p.1, p.2))

/-- `JSON.parse` on the fragment: one value plus trailing whitespace. -/
def parseJson (s : List Char) : Option Json :=
  (parseTop s).bind fun p => if skipWs p.2 = [] then some p.1 else none

/-! #### JS member access, truthiness and numeric comparison -/

/-- Property access `payload[k]`: `none` models `undefined`.  For objects
from `JSON.parse`, a duplicated key keeps its last occurrence. -/
def getField (j : Json) (k : List Char) : Option JVal :=
  match j with
  | .prim _ => none
  | .obj ms => (ms.reverse.find? (fun m => m.1 == k)).map (·.2)

/-- JS truthiness of a parsed JSON primitive. -/
def jsTruthy : JVal → Bool
  | .null => false
  | .bool b => b
  | .num n => n ≠ 0
  | .str s => s ≠ []

def jsTruthyField (v : Option JVal) : Bool :=
  match v with
  | none => false
  | some x => jsTruthy x

/-- Strict equality `x === lit` of a field against a string literal. -/
def jsStrictEqStr (v : Option JVal) (lit : List Char) : Bool :=
  match v with
  | some (.str s) => s = lit
  | _ => false

/-- JS `ToNumber` on a string: trimmed; empty means `0`; otherwise an
optionally signed decimal integer (the full JS grammar also has floats,
exponents and radix literals — the repository never compares non-decimal
string expiries, and all concrete instances here stay in the fragment);
anything else is NaN (`none`). -/
def strToNumber (s : List Char) : Option Int :=
  match jsTrim s with
  | [] => some 0
  | c :: ds =>
    if c = '-' then
      if ds ≠ [] ∧ ds.all Char.isDigit then some (-(valDigits 0 ds : Int)) else none
    else if c = '+' then
      if ds ≠ [] ∧ ds.all Char.isDigit then some ((valDigits 0 ds : Int)) else none
    else if (c :: ds).all Char.isDigit then some ((valDigits 0 (c :: ds) : Int))
    else none

/-- JS `ToNumber` of a parsed JSON primitive (`none` models NaN). -/
def jsToNumber : JVal → Option Int
  | .null => some 0
  | .bool b => some (if b then 1 else 0)
  | .num n => some n
  | .str s => strToNumber s

/-- The comparison `payload.exp < now`: `undefined` and NaN compare
false. -/
def jsLtNum (v : Option JVal) (now : Int) : Bool :=
  match v with
  | none => false
  | some x =>
    match jsToNumber x with
    | none => false
    | some m => m < now

/-! #### Round-trip lemmas: numbers -/

theorem natToCharsAux_append : ∀ (f n : Nat) (acc : List Char),
    natToCharsAux f n acc = natToCharsAux f n [] ++ acc
  | _, 0, acc => by simp [natToCharsAux]
  | 0, _ + 1, acc => by simp [natToCharsAux]
  | f + 1, n + 1, acc => by
    rw [natToCharsAux, natToCharsAux,
      natToCharsAux_append f ((n + 1) / 10) (Char.ofNat (48 + (n + 1) % 10) :: acc),
      natToCharsAux_append f ((n + 1) / 10) [Char.ofNat (48 + (n + 1) % 10)]]
    simp

theorem digitChar_isDigit : ∀ k < 10, (Char.ofNat (48 + k)).isDigit := by decide

theorem digitVal_digitChar : ∀ k < 10, digitVal (Char.ofNat (48 + k)) = k := by decide

theorem natToCharsAux_digits : ∀ (f n : Nat), ∀ c ∈ natToCharsAux f n [], c.isDigit
  | _, 0 => by simp [natToCharsAux]
  | 0, _ + 1 => by simp [natToCharsAux]
  | f + 1, n + 1 => by
    rw [natToCharsAux, natToCharsAux_append]
    intro c hc
    rcases List.mem_append.mp hc with h | h
    · exact natToCharsAux_digits f ((n + 1) / 10) c h
    · simp only [List.mem_singleton] at h
      subst h
      exact digitChar_isDigit _ (by omega)

theorem valDigits_append (a : Nat) (xs ys : List Char) :
    valDigits a (xs ++ ys) = valDigits (valDigits a xs) ys := by
  simp [valDigits, List.foldl_append]

theorem valDigits_natToCharsAux : ∀ (f n : Nat), 0 < n → n ≤ f → ∀ (a : Nat),
    ∃ p, 0 < p ∧ valDigits a (natToCharsAux f n []) = a * p + n
  | _, 0, h, _ => absurd h (by omega)
  | 0, n + 1, _, h => absurd h (by omega)
  | f + 1, n + 1, _, h => by
    intro a
    rw [natToCharsAux, natToCharsAux_append, valDigits_append]
    by_cases h10 : (n + 1) / 10 = 0
    · rw [h10, show natToCharsAux f 0 [] = [] from by simp [natToCharsAux]]
      refine ⟨10, by omega, ?_⟩
      show valDigits (valDigits a []) [Char.ofNat (48 + (n + 1) % 10)] = a * 10 + (n + 1)
      show valDigits a [] * 10 + digitVal (Char.ofNat (48 + (n + 1) % 10)) = a * 10 + (n + 1)
      rw [digitVal_digitChar _ (by omega)]
      show a * 10 + (n + 1) % 10 = a * 10 + (n + 1)
      omega
    · obtain ⟨p, hp, hv⟩ :=
        valDigits_natToCharsAux f ((n + 1) / 10) (by omega) (by omega) a
      refine ⟨p * 10, by omega, ?_⟩
      rw [hv]
      show (a * p + (n + 1) / 10) * 10 + digitVal (Char.ofNat (48 + (n + 1) % 10)) =
        a * (p * 10) + (n + 1)
      rw [digitVal_digitChar _ (by omega)]
      ring_nf
      omega

theorem readDigits_append : ∀ (ds : List Char) (a : Nat) (rest : List Char),
    (∀ c ∈ ds, c.isDigit) → (∀ c, rest.head? = some c → ¬c.isDigit) →
    readDigits a (ds ++ rest) = (valDigits a ds, rest)
  | [], a, rest, _, hr => by
    cases rest with
    | nil => rfl
    | cons c r =>
      rw [List.nil_append, readDigits, if_neg (hr c rfl)]
      rfl
  | d :: ds, a, rest, hd, hr => by
    rw [List.cons_append, readDigits, if_pos (hd d (by simp)),
      readDigits_append ds _ rest (fun c hc => hd c (by simp [hc])) hr]
    rfl

theorem natToChars_digits (n : Nat) : ∀ c ∈ natToChars n, c.isDigit := by
  rw [natToChars]
  by_cases h : n = 0
  · rw [if_pos h]; decide
  · rw [if_neg h]
    exact natToCharsAux_digits n n

theorem natToChars_ne_nil (n : Nat) : natToChars n ≠ [] := by
  rw [natToChars]
  by_cases h : n = 0
  · rw [if_pos h]; simp
  · rw [if_neg h]
    obtain ⟨m, rfl⟩ : ∃ m, n = m + 1 := ⟨n - 1, by omega⟩
    rw [natToCharsAux, natToCharsAux_append]
    simp

theorem readDigits_natToChars (n : Nat) (rest : List Char)
    (hr : ∀ c, rest.head? = some c → ¬c.isDigit) :
    readDigits 0 (natToChars n ++ rest) = (n, rest) := by
  rw [readDigits_append (natToChars n) 0 rest (natToChars_digits n) hr]
  by_cases h : n = 0
  · subst h
    rfl
  · rw [natToChars, if_neg h]
    obtain ⟨p, _, hv⟩ := valDigits_natToCharsAux n n (by omega) le_rfl 0
    rw [hv]
    simp only [Prod.mk.injEq, and_true]
    omega

theorem isDigit_ne_dash {c : Char} (h : c.isDigit) : c ≠ '-' := by
  intro hc
  subst hc
  exact absurd h (by decide)

theorem natToChars_head (n : Nat) :
    ∃ d rest, natToChars n = d :: rest ∧ d.isDigit := by
  cases h : natToChars n with
  | nil => exact absurd h (natToChars_ne_nil n)
  | cons d rest =>
    exact ⟨d, rest, rfl, natToChars_digits n d (by rw [h]; simp)⟩

theorem parseNumber_intToChars (i : Int) (rest : List Char)
    (hr : ∀ c, rest.head? = some c → ¬c.isDigit) :
    parseNumber (intToChars i ++ rest) = some (i, rest) := by
  rw [intToChars]
  by_cases hneg : i < 0
  · rw [if_pos hneg, List.cons_append, parseNumber, if_pos rfl,
      readDigits_natToChars i.natAbs rest hr]
    obtain ⟨d, r, hd, hdig⟩ := natToChars_head i.natAbs
    rw [hd, List.cons_append]
    simp only [if_pos hdig]
    congr 1
    congr 1
    omega
  · rw [if_neg hneg]
    obtain ⟨d, r, hd, hdig⟩ := natToChars_head i.toNat
    rw [hd, List.cons_append, parseNumber, if_neg (by simpa using isDigit_ne_dash hdig),
      if_pos hdig, ← List.cons_append, ← hd, readDigits_natToChars i.toNat rest hr]
    simp only [Option.some.injEq, Prod.mk.injEq, and_true]
    omega

/-! #### Round-trip lemmas: string literals -/

theorem parseStringAux_hexEscape (t : Nat) (ht : t < 0x20) (rest : List Char) :
    parseStringAux (.hex 4 0) ('0' :: '0' :: hexDigitChar (t / 16) :: hexDigitChar (t % 16) ::
        rest) =
      (parseStringAux .normal rest).map (fun p => (Char.ofNat t :: p.1, p.2)) := by
  rw [parseStringAux, show hexVal '0' = some 0 from rfl]
  show parseStringAux (.hex 3 0) ('0' :: hexDigitChar (t / 16) :: hexDigitChar (t % 16) ::
    rest) = _
  rw [parseStringAux, show hexVal '0' = some 0 from rfl]
  show parseStringAux (.hex 2 0) (hexDigitChar (t / 16) :: hexDigitChar (t % 16) :: rest) = _
  rw [parseStringAux, hexVal_hexDigitChar (t / 16) (by omega)]
  show parseStringAux (.hex 1 (0 * 16 + t / 16)) (hexDigitChar (t % 16) :: rest) = _
  rw [parseStringAux, hexVal_hexDigitChar (t % 16) (by omega)]
  show (if 1 ≤ 1 then _ else _) = _
  rw [if_pos le_rfl,
    if_neg (by omega : ¬ (0xD800 ≤ (0 * 16 + t / 16) * 16 + t % 16 ∧
      (0 * 16 + t / 16) * 16 + t % 16 < 0xE000)),
    show (0 * 16 + t / 16) * 16 + t % 16 = t by omega]

theorem parseStringAux_escapeChar (c : Char) (rest : List Char) :
    parseStringAux .normal (escapeChar c ++ rest) =
      (parseStringAux .normal rest).map (fun p => (c :: p.1, p.2)) := by
  rw [escapeChar]
  by_cases h1 : c = '"'
  · subst h1
    rw [if_pos rfl]
    show parseStringAux .normal ('\\' :: '"' :: rest) = _
    rw [parseStringAux, if_neg (by decide), if_pos rfl, parseStringAux, if_pos rfl]
  · rw [if_neg h1]
    by_cases h2 : c = '\\'
    · subst h2
      rw [if_pos rfl]
      show parseStringAux .normal ('\\' :: '\\' :: rest) = _
      rw [parseStringAux, if_neg (by decide), if_pos rfl, parseStringAux, if_neg (by decide),
        if_pos rfl]
    · rw [if_neg h2]
      by_cases h3 : c.toNat = 8
      · rw [if_pos h3]
        show parseStringAux .normal ('\\' :: 'b' :: rest) = _
        rw [parseStringAux, if_neg (by decide), if_pos rfl, parseStringAux, if_neg (by decide),
          if_neg (by decide), if_neg (by decide), if_pos rfl,
          show Char.ofNat 8 = c by rw [← h3, Char.ofNat_toNat]]
      · rw [if_neg h3]
        by_cases h4 : c.toNat = 9
        · rw [if_pos h4]
          show parseStringAux .normal ('\\' :: 't' :: rest) = _
          rw [parseStringAux, if_neg (by decide), if_pos rfl, parseStringAux, if_neg (by decide),
            if_neg (by decide), if_neg (by decide), if_neg (by decide), if_neg (by decide),
            if_neg (by decide), if_neg (by decide), if_pos rfl,
            show ('\t' : Char) = c by
              have h9 : ('\t' : Char) = Char.ofNat 9 := by decide
              rw [h9, ← h4, Char.ofNat_toNat]]
        · rw [if_neg h4]
          by_cases h5 : c.toNat = 10
          · rw [if_pos h5]
            show parseStringAux .normal ('\\' :: 'n' :: rest) = _
            rw [parseStringAux, if_neg (by decide), if_pos rfl, parseStringAux,
              if_neg (by decide), if_neg (by decide), if_neg (by decide), if_neg (by decide),
              if_neg (by decide), if_pos rfl,
              show ('\n' : Char) = c by
                have h9 : ('\n' : Char) = Char.ofNat 10 := by decide
                rw [h9, ← h5, Char.ofNat_toNat]]
          · rw [if_neg h5]
            by_cases h6 : c.toNat = 12
            · rw [if_pos h6]
              show parseStringAux .normal ('\\' :: 'f' :: rest) = _
              rw [parseStringAux, if_neg (by decide), if_pos rfl, parseStringAux,
                if_neg (by decide), if_neg (by decide), if_neg (by decide), if_neg (by decide),
                if_pos rfl, show Char.ofNat 12 = c by rw [← h6, Char.ofNat_toNat]]
            · rw [if_neg h6]
              by_cases h7 : c.toNat = 13
              · rw [if_pos h7]
                show parseStringAux .normal ('\\' :: 'r' :: rest) = _
                rw [parseStringAux, if_neg (by decide), if_pos rfl, parseStringAux,
                  if_neg (by decide), if_neg (by decide), if_neg (by decide),
                  if_neg (by decide), if_neg (by decide), if_neg (by decide), if_pos rfl,
                  show Char.ofNat 13 = c by rw [← h7, Char.ofNat_toNat]]
              · rw [if_neg h7]
                by_cases h8 : c.toNat < 0x20
                · rw [if_pos h8]
                  show parseStringAux .normal ('\\' :: 'u' :: '0' :: '0' ::
                    hexDigitChar (c.toNat / 16) :: hexDigitChar (c.toNat % 16) :: rest) = _
                  rw [parseStringAux, if_neg (by decide), if_pos rfl, parseStringAux,
                    if_neg (by decide), if_neg (by decide), if_neg (by decide),
                    if_neg (by decide), if_neg (by decide), if_neg (by decide),
                    if_neg (by decide), if_neg (by decide), if_pos rfl,
                    parseStringAux_hexEscape c.toNat h8 rest, Char.ofNat_toNat]
                · rw [if_neg h8]
                  show parseStringAux .normal (c :: rest) = _
                  rw [parseStringAux, if_neg h1, if_neg h2, if_neg h8]

theorem parseStringAux_escapeStr (s : List Char) : ∀ (rest : List Char),
    parseStringAux .normal (escapeStr s ++ '"' :: rest) = some (s, rest) := by
  induction s with
  | nil =>
    intro rest
    show parseStringAux .normal ('"' :: rest) = some ([], rest)
    rw [parseStringAux, if_pos rfl]
  | cons c cs ih =>
    intro rest
    show parseStringAux .normal ((escapeChar c ++ escapeStr cs) ++ '"' :: rest) = _
    rw [List.append_assoc, parseStringAux_escapeChar, ih rest]
    rfl

/-! #### Round-trip lemmas: values and members -/

theorem skipWs_cons (c : Char) (l : List Char)
    (h : ¬(c = ' ' ∨ c = '\t' ∨ c = '\n' ∨ c = '\r')) : skipWs (c :: l) = c :: l := by
  rw [skipWs, if_neg h]

theorem ne_of_isDigit {c : Char} (h : c.isDigit) (d : Char) (hd : ¬d.isDigit) : c ≠ d :=
  fun he => hd (he ▸ h)

theorem parsePrim_stringify (v : JVal) (d : Char) (rest : List Char) (hd : ¬d.isDigit)
    (_hw : ¬(d = ' ' ∨ d = '\t' ∨ d = '\n' ∨ d = '\r')) :
    parsePrim (stringifyJVal v ++ d :: rest) = some (v, d :: rest) := by
  cases v with
  | null =>
    show parsePrim ('n' :: 'u' :: 'l' :: 'l' :: d :: rest) = _
    rw [parsePrim, skipWs_cons _ _ (by decide), parsePrimCore, if_neg (by decide),
      if_neg (by decide), if_neg (by decide), if_pos rfl,
      show dropLit "ull".data ('u' :: 'l' :: 'l' :: d :: rest) = some (d :: rest) by
        rw [dropLit, if_pos rfl, dropLit, if_pos rfl, dropLit, if_pos rfl, dropLit]]
    rfl
  | bool b =>
    cases b with
    | true =>
      show parsePrim ('t' :: 'r' :: 'u' :: 'e' :: d :: rest) = _
      rw [parsePrim, skipWs_cons _ _ (by decide), parsePrimCore, if_neg (by decide), if_pos rfl,
        show dropLit "rue".data ('r' :: 'u' :: 'e' :: d :: rest) = some (d :: rest) by
          rw [dropLit, if_pos rfl, dropLit, if_pos rfl, dropLit, if_pos rfl, dropLit]]
      rfl
    | false =>
      show parsePrim ('f' :: 'a' :: 'l' :: 's' :: 'e' :: d :: rest) = _
      rw [parsePrim, skipWs_cons _ _ (by decide), parsePrimCore, if_neg (by decide),
        if_neg (by decide), if_pos rfl,
        show dropLit "alse".data ('a' :: 'l' :: 's' :: 'e' :: d :: rest) = some (d :: rest) by
          rw [dropLit, if_pos rfl, dropLit, if_pos rfl, dropLit, if_pos rfl, dropLit, if_pos rfl,
            dropLit]]
      rfl
  | num n =>
    show parsePrim (intToChars n ++ d :: rest) = _
    have hnum : parseNumber (intToChars n ++ d :: rest) = some (n, d :: rest) :=
      parseNumber_intToChars n (d :: rest) (fun c hc => by
        simp only [List.head?_cons, Option.some.injEq] at hc
        subst hc
        exact hd)
    rw [intToChars]
    by_cases hneg : n < 0
    · rw [if_pos hneg, List.cons_append, parsePrim, skipWs_cons _ _ (by decide), parsePrimCore,
        if_neg (by decide), if_neg (by decide), if_neg (by decide), if_neg (by decide)]
      rw [intToChars, if_pos hneg, List.cons_append] at hnum
      rw [hnum]
      rfl
    · rw [if_neg hneg]
      obtain ⟨c0, r0, hc0, hdig⟩ := natToChars_head n.toNat
      rw [hc0, List.cons_append, parsePrim,
        skipWs_cons _ _ (fun h => by
          rcases h with h | h | h | h <;> exact absurd hdig (by subst h; decide)),
        parsePrimCore,
        if_neg (ne_of_isDigit hdig _ (by decide)),
        if_neg (ne_of_isDigit hdig _ (by decide)),
        if_neg (ne_of_isDigit hdig _ (by decide)),
        if_neg (ne_of_isDigit hdig _ (by decide))]
      rw [intToChars, if_neg hneg, hc0, List.cons_append] at hnum
      rw [hnum]
      rfl
  | str s =>
    show parsePrim (('"' :: (escapeStr s ++ ['"'])) ++ d :: rest) = _
    rw [List.cons_append, List.append_assoc, parsePrim, skipWs_cons _ _ (by decide),
      parsePrimCore, if_pos rfl]
    show (parseStringAux .normal (escapeStr s ++ '"' :: d :: rest)).map _ = _
    rw [parseStringAux_escapeStr]
    rfl

theorem parseMembersAux_single (k : List Char) (v : JVal) (f : Nat) (rest : List Char) :
    parseMembersAux (f + 1) (stringifyMembers [(k, v)] ++ '}' :: rest) = some ([(k, v)], rest) := by
  show parseMembersAux (f + 1)
    (('"' :: (escapeStr k ++ ['"']) ++ ':' :: stringifyJVal v) ++ '}' :: rest) = _
  rw [parseMembersAux]
  simp only [List.cons_append, List.append_assoc, List.singleton_append, List.nil_append]
  rw [skipWs_cons _ _ (by decide)]
  simp only [List.head?_cons, List.tail_cons, if_pos rfl]
  rw [parseStringAux_escapeStr k (':' :: (stringifyJVal v ++ '}' :: rest))]
  simp only [Option.some_bind]
  rw [skipWs_cons _ _ (by decide)]
  simp only [List.head?_cons, List.tail_cons, if_pos rfl]
  rw [parsePrim_stringify v '}' rest (by decide) (by decide)]
  simp only [Option.some_bind]
  rw [skipWs_cons _ _ (by decide)]
  simp only [List.head?_cons, List.tail_cons]
  rw [if_pos trivial, if_pos trivial, if_neg (by decide), if_pos trivial]

theorem parseMembersAux_stringify : ∀ (ms : List (List Char × JVal)) (f : Nat)
    (rest : List Char), ms ≠ [] →
    parseMembersAux (f + ms.length) (stringifyMembers ms ++ '}' :: rest) = some (ms, rest)
  | [], _, _, h => absurd rfl h
  | [(k, v)], f, rest, _ => parseMembersAux_single k v f rest
  | (k, v) :: m2 :: ms2, f, rest, _ => by
    have ih := parseMembersAux_stringify (m2 :: ms2) f rest (by simp)
    rw [List.length_cons, ← Nat.add_assoc, stringifyMembers, strLit]
    rw [parseMembersAux]
    simp only [List.cons_append, List.append_assoc, List.singleton_append, List.nil_append]
    rw [skipWs_cons _ _ (by decide)]
    simp only [List.head?_cons, List.tail_cons, if_pos rfl]
    rw [parseStringAux_escapeStr k
      (':' :: (stringifyJVal v ++ ',' :: (stringifyMembers (m2 :: ms2) ++ '}' :: rest)))]
    simp only [Option.some_bind]
    rw [skipWs_cons _ _ (by decide)]
    simp only [List.head?_cons, List.tail_cons, if_pos rfl]
    rw [parsePrim_stringify v ','
      (stringifyMembers (m2 :: ms2) ++ '}' :: rest) (by decide) (by decide)]
    simp only [Option.some_bind]
    rw [skipWs_cons _ _ (by decide)]
    simp only [List.head?_cons, List.tail_cons]
    rw [if_pos trivial, if_pos trivial, if_pos trivial, ih]
    · rfl
    · simp

theorem stringifyMembers_head : ∀ (ms : List (List Char × JVal)), ms ≠ [] →
    ∃ x, stringifyMembers ms = '"' :: x
  | [], h => absurd rfl h
  | [(k, v)], _ => ⟨escapeStr k ++ ['"'] ++ ':' :: stringifyJVal v, by
      rw [stringifyMembers, strLit]
      simp [List.append_assoc]⟩
  | (k, v) :: m2 :: ms2, _ => ⟨escapeStr k ++ ['"'] ++
      ':' :: (stringifyJVal v ++ ',' :: stringifyMembers (m2 :: ms2)), by
      rw [stringifyMembers, strLit]
      · simp [List.append_assoc]
      · simp⟩

theorem stringifyMembers_length : ∀ (ms : List (List Char × JVal)),
    ms.length ≤ (stringifyMembers ms).length
  | [] => by simp
  | [(k, v)] => by
    rw [stringifyMembers, strLit]
    simp
  | (k, v) :: m2 :: ms2 => by
    have ih := stringifyMembers_length (m2 :: ms2)
    rw [stringifyMembers, strLit]
    · simp only [List.length_cons, List.length_append, List.cons_append]
      simp at ih ⊢
      omega
    · simp

theorem parseJson_stringify_obj (ms : List (List Char × JVal)) :
    parseJson (stringifyJson (Json.obj ms)) = some (Json.obj ms) := by
  rw [stringifyJson, parseJson, parseTop, List.cons_append,
    skipWs_cons _ _ (by decide)]
  simp only [List.head?_cons, List.tail_cons, if_pos rfl]
  by_cases hms : ms = []
  · subst hms
    rw [show stringifyMembers [] = [] from rfl, List.nil_append,
      skipWs_cons _ _ (by decide)]
    simp only [List.head?_cons, List.tail_cons]
    rw [if_pos trivial, if_pos trivial]
    simp only [Option.some_bind]
    rw [show skipWs [] = [] from rfl, if_pos rfl]
  · obtain ⟨x, hx⟩ := stringifyMembers_head ms hms
    have hlen := stringifyMembers_length ms
    rw [show (stringifyMembers ms ++ ['}'] : List Char) = '"' :: (x ++ ['}']) by
        rw [hx, List.cons_append],
      skipWs_cons _ _ (by decide)]
    simp only [List.head?_cons, List.tail_cons]
    rw [if_neg (show ¬((some '"' : Option Char) = some '}') by decide),
      show ('"' :: (x ++ ['}']) : List Char) = stringifyMembers ms ++ ['}'] by
        rw [hx, List.cons_append],
      show (stringifyMembers ms ++ ['}']).length + 1 =
        ((stringifyMembers ms ++ ['}']).length + 1 - ms.length) + ms.length by
          simp only [List.length_append, List.length_cons, List.length_nil]
          omega,
      show (stringifyMembers ms ++ ['}'] : List Char) = stringifyMembers ms ++ '}' :: [] from
        rfl,
      parseMembersAux_stringify ms _ [] hms]
    simp only [Option.map_some']
    rw [if_pos trivial]
    simp only [Option.some_bind]
    rw [show skipWs [] = [] from rfl, if_pos rfl]

/-! ### The token envelope (`src/lib/username-policy.ts`)

The HMAC-SHA256 signer (`sign` in the source, a Node `crypto` primitive
closed over the resolved secret) is a parameter of the model: an opaque
deterministic function from the signed segment to the signature string. -/

/-- Source `base64UrlEncode`:
`Buffer.from(value, "utf8").toString("base64url")`. -/
def b64UrlEncodeStr (s : List Char) : List Char := b64Encode (utf8Encode s)

/-- Source `base64UrlDecode`:
`Buffer.from(value, "base64url").toString("utf8")`. -/
def b64UrlDecodeStr (s : List Char) : Option (List Char) := (b64Decode s).bind utf8Decode

def SESSION_TTL_SECONDS : Int := 60 * 60 * 24 * 7

def EMAIL_VERIFICATION_TTL_SECONDS : Int := 60 * 30

def RESET_PASSWORD_TTL_SECONDS : Int := 60 * 30

/-- Shared issuance shape: `` `${encoded}.${sign(encoded)}` ``. -/
def signedToken (sign : List Char → List Char) (payload : Json) : List Char :=
  let encoded := b64UrlEncodeStr (stringifyJson payload)
  encoded ++ '.' :: sign encoded

/-- The payload record built by `createSessionToken`. -/
def sessionPayload (email : List Char) (exp : Int) : Json :=
  .obj [("email".data, .str email), ("exp".data, .num exp)]

/-- Source `createSessionToken(email)`; `now` is `Math.floor(Date.now() / 1000)`. -/
def createSessionToken (sign : List Char → List Char) (email : List Char) (now : Int) :
    List Char :=
  signedToken sign (sessionPayload email (now + SESSION_TTL_SECONDS))

/-- The payload record built by `createEmailVerificationToken` (e-mail and
username normalised by trim + lowercase). -/
def emailVerificationPayload (email username passwordHash : List Char) (exp : Int) : Json :=
  .obj [("typ".data, .str "verify_email".data), ("email".data, .str email),
    ("username".data, .str username), ("passwordHash".data, .str passwordHash),
    ("exp".data, .num exp)]

/-- Source `createEmailVerificationToken(email, username, passwordHash)`. -/
def createEmailVerificationToken (sign : List Char → List Char)
    (email username passwordHash : List Char) (now : Int) : List Char :=
  signedToken sign
    (emailVerificationPayload (jsLower (jsTrim email)) (jsLower (jsTrim username)) passwordHash
      (now + EMAIL_VERIFICATION_TTL_SECONDS))

/-- The payload record built by `createResetPasswordToken`. -/
def resetPasswordPayload (email : List Char) (exp : Int) : Json :=
  .obj [("typ".data, .str "reset_password".data), ("email".data, .str email),
    ("exp".data, .num exp)]

/-- Source `createResetPasswordToken(email)`. -/
def createResetPasswordToken (sign : List Char → List Char) (email : List Char) (now : Int) :
    List Char :=
  signedToken sign (resetPasswordPayload (jsLower (jsTrim email)) (now + RESET_PASSWORD_TTL_SECONDS))

/-- The envelope stage that all three validators repeat verbatim in the
source: empty-token guard, `token.split(".")` destructured to its first two
segments, truthiness of both, recomputation of the signature, byte-length
comparison followed by `timingSafeEqual` (byte equality), then
`JSON.parse(base64UrlDecode(encoded))` with any failure caught to `null`. -/
def checkSignedEnvelope (sign : List Char → List Char) (token : List Char) : Option Json :=
  if token = [] then none
  else
    match splitCh '.' token with
    | encoded :: signature :: _ =>
      if encoded = [] then none
      else if signature = [] then none
      else
        let expected := sign encoded
        if (utf8Encode signature).length ≠ (utf8Encode expected).length then none
        else if utf8Encode signature ≠ utf8Encode expected then none
        else (b64UrlDecodeStr encoded).bind parseJson
    | _ => none

/-- Source `verifySessionToken(token)`: envelope stage, then
`!payload.email || !payload.exp` and `payload.exp < now` (no kind tag is
checked — `SessionPayload` has no `typ` field). -/
def verifySessionToken (sign : List Char → List Char) (token : List Char) (now : Int) :
    Option Json :=
  match checkSignedEnvelope sign token with
  | none => none
  | some payload =>
    if !jsTruthyField (getField payload "email".data) ||
        !jsTruthyField (getField payload "exp".data) then none
    else if jsLtNum (getField payload "exp".data) now then none
    else some payload

/-- Source `verifyEmailVerificationToken(token)`. -/
def verifyEmailVerificationToken (sign : List Char → List Char) (token : List Char)
    (now : Int) : Option Json :=
  match checkSignedEnvelope sign token with
  | none => none
  | some payload =>
    if !jsStrictEqStr (getField payload "typ".data) "verify_email".data ||
        !jsTruthyField (getField payload "email".data) ||
        !jsTruthyField (getField payload "username".data) ||
        !jsTruthyField (getField payload "passwordHash".data) ||
        !jsTruthyField (getField payload "exp".data) then none
    else if jsLtNum (getField payload "exp".data) now then none
    else some payload

/-- Source `verifyResetPasswordToken(token)`. -/
def verifyResetPasswordToken (sign : List Char → List Char) (token : List Char)
    (now : Int) : Option Json :=
  match checkSignedEnvelope sign token with
  | none => none
  | some payload =>
    if !jsStrictEqStr (getField payload "typ".data) "reset_password".data ||
        !jsTruthyField (getField payload "email".data) ||
        !jsTruthyField (getField payload "exp".data) then none
    else if jsLtNum (getField payload "exp".data) now then none
    else some payload

/-! ### Secret resolution (`getSessionSecret`) -/

/-- The environment variables `getSessionSecret` consults; `none` models an
unset variable. -/
structure Env where
  authSecret : Option (List Char)
  nodeEnv : Option (List Char)
  vercelDeploymentId : Option (List Char)
  vercelGitCommitSha : Option (List Char)
  vercelUrl : Option (List Char)
  vercelProjectProductionUrl : Option (List Char)
  vercelProjectId : Option (List Char)
  vercelOrgId : Option (List Char)

/-- Join with `"|"` (`Array.prototype.join`). -/
def joinPipe : List (List Char) → List Char
  | [] => []
  | [x] => x
  | x :: y :: xs => x ++ '|' :: joinPipe (y :: xs)

def vercelFields (env : Env) : List (Option (List Char)) :=
  [env.vercelDeploymentId, env.vercelGitCommitSha, env.vercelUrl,
    env.vercelProjectProductionUrl, env.vercelProjectId, env.vercelOrgId]

/-- The branch of `getSessionSecret` after the explicit secret was found
falsy: development placeholder outside production, otherwise the
SHA-256-derived Vercel fallback, otherwise the fatal error. -/
def getSessionSecretFallback (sha256 : List Char → List Char) (env : Env) :
    Except (List Char) (List Char) :=
  if env.nodeEnv ≠ some "production".data then .ok "change-this-secret-in-production".data
  else
    let kept := (vercelFields env).filterMap
      (fun v => match v with
        | none => none
        | some s => if s ≠ [] ∧ jsTrim s ≠ [] then some s else none)
    let vercelEntropy := joinPipe kept
    if vercelEntropy ≠ [] then .ok (sha256 ("livestation:".data ++ vercelEntropy))
    else .error "AUTH_SECRET must be set in production.".data

/-- Source `getSessionSecret`, with SHA-256 (Node `crypto`) as an opaque
parameter. -/
def getSessionSecret (sha256 : List Char → List Char) (env : Env) :
    Except (List Char) (List Char) :=
  match env.authSecret.map jsTrim with
  | some s => if s ≠ [] then .ok s else getSessionSecretFallback sha256 env
  | none => getSessionSecretFallback sha256 env

/-! ### Origin guard (`hasSameOrigin`) -/

/-- The request headers `hasSameOrigin` reads. -/
structure ReqHeaders where
  origin : Option (List Char)
  host : Option (List Char)
  xForwardedHost : Option (List Char)

/-- The acceptable-host list: the trimmed lowercased `Host` header when
truthy, plus every non-empty trimmed lowercased comma-separated
`x-forwarded-host` value. -/
def allowedHosts (req : ReqHeaders) : List (List Char) :=
  (match req.host with
    | some h => if h ≠ [] then [jsLower (jsTrim h)] else []
    | none => []) ++
  (match req.xForwardedHost with
    | some fh =>
      if fh ≠ [] then ((splitCh ',' fh).map (fun v => jsLower (jsTrim v))).filter (· ≠ []) else []
    | none => [])

/-- Source `hasSameOrigin(request)`; `parseUrlHost` models
`new URL(origin).host` (`none` when the constructor throws). -/
def hasSameOrigin (parseUrlHost : List Char → Option (List Char)) (req : ReqHeaders) : Bool :=
  match req.origin with
  | none => true
  | some o =>
    if o = [] then true
    else
      match parseUrlHost o with
      | none => false
      | some originHost =>
        if allowedHosts req = [] then true
        else decide (jsLower originHost ∈ allowedHosts req)

/-! ### Password hashing (`hashPassword` / `verifyPassword`)

scrypt (Node `crypto`, password → salt → key length → derived key bytes) is
an opaque deterministic parameter; the random salt of `hashPassword`
(`randomBytes(16).toString("hex")` in the source) is made an explicit
argument. -/

/-- Source `hashPassword(password)`: `` `${salt}:${key.toString("hex")}` ``. -/
def hashPassword (scrypt : List Char → List Char → Nat → List Nat)
    (password salt : List Char) : List Char :=
  salt ++ ':' :: bytesToHex (scrypt password salt 64)

/-- Source `verifyPassword(password, storedHash)`: split on `":"`,
truthiness of both parts, re-derivation, length guard, `timingSafeEqual`. -/
def verifyPassword (scrypt : List Char → List Char → Nat → List Nat)
    (password storedHash : List Char) : Bool :=
  match splitCh ':' storedHash with
  | salt :: expectedHex :: _ =>
    if salt = [] then false
    else if expectedHex = [] then false
    else
      let key := scrypt password salt 64
      let expected := hexDecode expectedHex
      if expected.length ≠ key.length then false
      else decide (key = expected)
  | _ => false

/-! ### Envelope round trip -/

theorem utf8EncodeChar_ne_nil (u : Nat) : utf8EncodeChar u ≠ [] := by
  unfold utf8EncodeChar
  split
  · simp
  · split
    · simp
    · split <;> simp

theorem utf8Encode_ne_nil (s : List Char) (h : s ≠ []) : utf8Encode s ≠ [] := by
  cases s with
  | nil => exact absurd rfl h
  | cons c cs =>
    show utf8EncodeChar c.toNat ++ utf8Encode cs ≠ []
    simp [List.append_eq_nil, utf8EncodeChar_ne_nil]

theorem stringifyJson_obj_ne_nil (ms : List (List Char × JVal)) :
    stringifyJson (Json.obj ms) ≠ [] := by
  rw [stringifyJson]
  simp

theorem checkSignedEnvelope_signedToken (sign : List Char → List Char)
    (hdot : ∀ s, '.' ∉ sign s) (hne : ∀ s, sign s ≠ [])
    (ms : List (List Char × JVal)) :
    checkSignedEnvelope sign (signedToken sign (Json.obj ms)) = some (Json.obj ms) := by
  have hbytes := utf8Encode_lt_256 (stringifyJson (Json.obj ms))
  have hencne : b64UrlEncodeStr (stringifyJson (Json.obj ms)) ≠ [] :=
    b64Encode_ne_nil _ (utf8Encode_ne_nil _ (stringifyJson_obj_ne_nil ms))
  rw [signedToken, checkSignedEnvelope]
  rw [if_neg (by
    simp only [List.append_eq_nil, not_and]
    intro _ h
    simp at h)]
  rw [splitCh_append_sep,
    splitCh_of_not_mem '.' (b64UrlEncodeStr (stringifyJson (Json.obj ms)))
      (by rw [b64UrlEncodeStr]; exact dot_not_mem_b64Encode _),
    splitCh_of_not_mem '.' _ (hdot _)]
  simp only [List.singleton_append]
  rw [if_neg (by simpa using hencne), if_neg (by simpa using hne _)]
  rw [if_neg (by simp), if_neg (by simp)]
  rw [b64UrlDecodeStr, b64UrlEncodeStr, b64Decode_encode _ hbytes]
  simp only [Option.some_bind]
  rw [show utf8Decode (utf8Encode (stringifyJson (Json.obj ms))) =
        some (stringifyJson (Json.obj ms)) from utf8Decode_encode _]
  simp only [Option.some_bind]
  exact parseJson_stringify_obj ms

/-! ### Field lookups on the payload shapes -/

theorem getField_session_email (e : List Char) (x : Int) :
    getField (sessionPayload e x) "email".data = some (.str e) := rfl

theorem getField_session_exp (e : List Char) (x : Int) :
    getField (sessionPayload e x) "exp".data = some (.num x) := rfl

theorem getField_reset_typ (e : List Char) (x : Int) :
    getField (resetPasswordPayload e x) "typ".data = some (.str "reset_password".data) := rfl

theorem getField_reset_email (e : List Char) (x : Int) :
    getField (resetPasswordPayload e x) "email".data = some (.str e) := rfl

theorem getField_reset_exp (e : List Char) (x : Int) :
    getField (resetPasswordPayload e x) "exp".data = some (.num x) := rfl

theorem getField_emailver_typ (e u p : List Char) (x : Int) :
    getField (emailVerificationPayload e u p x) "typ".data =
      some (.str "verify_email".data) := rfl

theorem getField_emailver_email (e u p : List Char) (x : Int) :
    getField (emailVerificationPayload e u p x) "email".data = some (.str e) := rfl

theorem getField_emailver_username (e u p : List Char) (x : Int) :
    getField (emailVerificationPayload e u p x) "username".data = some (.str u) := rfl

theorem getField_emailver_passwordHash (e u p : List Char) (x : Int) :
    getField (emailVerificationPayload e u p x) "passwordHash".data = some (.str p) := rfl

theorem getField_emailver_exp (e u p : List Char) (x : Int) :
    getField (emailVerificationPayload e u p x) "exp".data = some (.num x) := rfl

/-! ### Validator behaviour on issued tokens -/

theorem verifySessionToken_createSessionToken (sign : List Char → List Char)
    (hdot : ∀ s, '.' ∉ sign s) (hne : ∀ s, sign s ≠ [])
    (email : List Char) (now t : Int) (hemail : email ≠ [])
    (hexp0 : now + SESSION_TTL_SECONDS ≠ 0)
    (hexp : ¬(now + SESSION_TTL_SECONDS < t)) :
    verifySessionToken sign (createSessionToken sign email now) t =
      some (sessionPayload email (now + SESSION_TTL_SECONDS)) := by
  rw [verifySessionToken, createSessionToken, sessionPayload,
    checkSignedEnvelope_signedToken sign hdot hne]
  simp only []
  have h1 : jsTruthyField (getField (sessionPayload email (now + SESSION_TTL_SECONDS))
      "email".data) = true := by
    rw [getField_session_email]
    simp [jsTruthyField, jsTruthy, hemail]
  have h2 : jsTruthyField (getField (sessionPayload email (now + SESSION_TTL_SECONDS))
      "exp".data) = true := by
    rw [getField_session_exp]
    simp [jsTruthyField, jsTruthy, hexp0]
  have h3 : jsLtNum (getField (sessionPayload email (now + SESSION_TTL_SECONDS))
      "exp".data) t = false := by
    rw [getField_session_exp]
    simp [jsLtNum, jsToNumber, hexp]
  rw [sessionPayload] at h1 h2 h3
  rw [h1, h2, h3]
  rfl

theorem verifyResetPasswordToken_create (sign : List Char → List Char)
    (hdot : ∀ s, '.' ∉ sign s) (hne : ∀ s, sign s ≠ [])
    (email : List Char) (now t : Int) (hemail : jsLower (jsTrim email) ≠ [])
    (hexp0 : now + RESET_PASSWORD_TTL_SECONDS ≠ 0)
    (hexp : ¬(now + RESET_PASSWORD_TTL_SECONDS < t)) :
    verifyResetPasswordToken sign (createResetPasswordToken sign email now) t =
      some (resetPasswordPayload (jsLower (jsTrim email)) (now + RESET_PASSWORD_TTL_SECONDS)) := by
  rw [verifyResetPasswordToken, createResetPasswordToken, resetPasswordPayload,
    checkSignedEnvelope_signedToken sign hdot hne]
  simp only []
  have h0 : jsStrictEqStr (getField (resetPasswordPayload (jsLower (jsTrim email))
      (now + RESET_PASSWORD_TTL_SECONDS)) "typ".data) "reset_password".data = true := by
    rw [getField_reset_typ]
    simp [jsStrictEqStr]
  have h1 : jsTruthyField (getField (resetPasswordPayload (jsLower (jsTrim email))
      (now + RESET_PASSWORD_TTL_SECONDS)) "email".data) = true := by
    rw [getField_reset_email]
    simp [jsTruthyField, jsTruthy, hemail]
  have h2 : jsTruthyField (getField (resetPasswordPayload (jsLower (jsTrim email))
      (now + RESET_PASSWORD_TTL_SECONDS)) "exp".data) = true := by
    rw [getField_reset_exp]
    simp [jsTruthyField, jsTruthy, hexp0]
  have h3 : jsLtNum (getField (resetPasswordPayload (jsLower (jsTrim email))
      (now + RESET_PASSWORD_TTL_SECONDS)) "exp".data) t = false := by
    rw [getField_reset_exp]
    simp [jsLtNum, jsToNumber, hexp]
  rw [resetPasswordPayload] at h0 h1 h2 h3
  rw [h0, h1, h2, h3]
  rfl

/-- Kind confusion: the session validator runs its checks on a
reset-password payload and accepts it — it never looks at `typ`. -/
theorem verifySessionToken_acceptsResetToken (sign : List Char → List Char)
    (hdot : ∀ s, '.' ∉ sign s) (hne : ∀ s, sign s ≠ [])
    (email : List Char) (now t : Int) (hemail : jsLower (jsTrim email) ≠ [])
    (hexp0 : now + RESET_PASSWORD_TTL_SECONDS ≠ 0)
    (hexp : ¬(now + RESET_PASSWORD_TTL_SECONDS < t)) :
    verifySessionToken sign (createResetPasswordToken sign email now) t =
      some (resetPasswordPayload (jsLower (jsTrim email)) (now + RESET_PASSWORD_TTL_SECONDS)) := by
  rw [verifySessionToken, createResetPasswordToken, resetPasswordPayload,
    checkSignedEnvelope_signedToken sign hdot hne]
  simp only []
  have h1 : jsTruthyField (getField (resetPasswordPayload (jsLower (jsTrim email))
      (now + RESET_PASSWORD_TTL_SECONDS)) "email".data) = true := by
    rw [getField_reset_email]
    simp [jsTruthyField, jsTruthy, hemail]
  have h2 : jsTruthyField (getField (resetPasswordPayload (jsLower (jsTrim email))
      (now + RESET_PASSWORD_TTL_SECONDS)) "exp".data) = true := by
    rw [getField_reset_exp]
    simp [jsTruthyField, jsTruthy, hexp0]
  have h3 : jsLtNum (getField (resetPasswordPayload (jsLower (jsTrim email))
      (now + RESET_PASSWORD_TTL_SECONDS)) "exp".data) t = false := by
    rw [getField_reset_exp]
    simp [jsLtNum, jsToNumber, hexp]
  rw [resetPasswordPayload] at h1 h2 h3
  rw [h1, h2, h3]
  rfl

theorem verifyEmailVerificationToken_create (sign : List Char → List Char)
    (hdot : ∀ s, '.' ∉ sign s) (hne : ∀ s, sign s ≠ [])
    (email username passwordHash : List Char) (now t : Int)
    (hemail : jsLower (jsTrim email) ≠ []) (husername : jsLower (jsTrim username) ≠ [])
    (hhash : passwordHash ≠ [])
    (hexp0 : now + EMAIL_VERIFICATION_TTL_SECONDS ≠ 0)
    (hexp : ¬(now + EMAIL_VERIFICATION_TTL_SECONDS < t)) :
    verifyEmailVerificationToken sign
        (createEmailVerificationToken sign email username passwordHash now) t =
      some (emailVerificationPayload (jsLower (jsTrim email)) (jsLower (jsTrim username))
        passwordHash (now + EMAIL_VERIFICATION_TTL_SECONDS)) := by
  rw [verifyEmailVerificationToken, createEmailVerificationToken, emailVerificationPayload,
    checkSignedEnvelope_signedToken sign hdot hne]
  simp only []
  have h0 : jsStrictEqStr (getField (emailVerificationPayload (jsLower (jsTrim email))
      (jsLower (jsTrim username)) passwordHash (now + EMAIL_VERIFICATION_TTL_SECONDS))
      "typ".data) "verify_email".data = true := by
    rw [getField_emailver_typ]
    simp [jsStrictEqStr]
  have h1 : jsTruthyField (getField (emailVerificationPayload (jsLower (jsTrim email))
      (jsLower (jsTrim username)) passwordHash (now + EMAIL_VERIFICATION_TTL_SECONDS))
      "email".data) = true := by
    rw [getField_emailver_email]
    simp [jsTruthyField, jsTruthy, hemail]
  have h2 : jsTruthyField (getField (emailVerificationPayload (jsLower (jsTrim email))
      (jsLower (jsTrim username)) passwordHash (now + EMAIL_VERIFICATION_TTL_SECONDS))
      "username".data) = true := by
    rw [getField_emailver_username]
    simp [jsTruthyField, jsTruthy, husername]
  have h3 : jsTruthyField (getField (emailVerificationPayload (jsLower (jsTrim email))
      (jsLower (jsTrim username)) passwordHash (now + EMAIL_VERIFICATION_TTL_SECONDS))
      "passwordHash".data) = true := by
    rw [getField_emailver_passwordHash]
    simp [jsTruthyField, jsTruthy, hhash]
  have h4 : jsTruthyField (getField (emailVerificationPayload (jsLower (jsTrim email))
      (jsLower (jsTrim username)) passwordHash (now + EMAIL_VERIFICATION_TTL_SECONDS))
      "exp".data) = true := by
    rw [getField_emailver_exp]
    simp [jsTruthyField, jsTruthy, hexp0]
  have h5 : jsLtNum (getField (emailVerificationPayload (jsLower (jsTrim email))
      (jsLower (jsTrim username)) passwordHash (now + EMAIL_VERIFICATION_TTL_SECONDS))
      "exp".data) t = false := by
    rw [getField_emailver_exp]
    simp [jsLtNum, jsToNumber, hexp]
  rw [emailVerificationPayload] at h0 h1 h2 h3 h4 h5
  rw [h0, h1, h2, h3, h4, h5]
  rfl

/-! ### Expiry enforcement, inversion, and trailing-segment stability -/

theorem verify_expired_all_none (sign : List Char → List Char) (token : List Char)
    (now : Int) (payload : Json) (e : Int)
    (henv : checkSignedEnvelope sign token = some payload)
    (hexp : getField payload "exp".data = some (.num e)) (hlt : e < now) :
    verifySessionToken sign token now = none ∧
      verifyEmailVerificationToken sign token now = none ∧
      verifyResetPasswordToken sign token now = none := by
  have hltb : jsLtNum (getField payload "exp".data) now = true := by
    rw [hexp]
    simp [jsLtNum, jsToNumber, hlt]
  refine ⟨?_, ?_, ?_⟩
  · rw [verifySessionToken, henv]
    simp only []
    cases hb : (!jsTruthyField (getField payload "email".data) ||
        !jsTruthyField (getField payload "exp".data)) with
    | true => simp
    | false =>
      rw [if_neg (by simp)]
      simp [jsLtNum, jsToNumber, hexp, hlt]
  · rw [verifyEmailVerificationToken, henv]
    simp only []
    cases hb : (!jsStrictEqStr (getField payload "typ".data) "verify_email".data ||
        !jsTruthyField (getField payload "email".data) ||
        !jsTruthyField (getField payload "username".data) ||
        !jsTruthyField (getField payload "passwordHash".data) ||
        !jsTruthyField (getField payload "exp".data)) with
    | true => simp
    | false =>
      rw [if_neg (by simp)]
      simp [jsLtNum, jsToNumber, hexp, hlt]
  · rw [verifyResetPasswordToken, henv]
    simp only []
    cases hb : (!jsStrictEqStr (getField payload "typ".data) "reset_password".data ||
        !jsTruthyField (getField payload "email".data) ||
        !jsTruthyField (getField payload "exp".data)) with
    | true => simp
    | false =>
      rw [if_neg (by simp)]
      simp [jsLtNum, jsToNumber, hexp, hlt]

theorem checkSignedEnvelope_append (sign : List Char → List Char) (t s : List Char)
    (p : Json) (h : checkSignedEnvelope sign t = some p) :
    checkSignedEnvelope sign (t ++ '.' :: s) = some p := by
  rw [checkSignedEnvelope] at h
  by_cases ht : t = []
  · rw [if_pos ht] at h
    exact absurd h (by simp)
  · rw [if_neg ht] at h
    cases hsp : splitCh '.' t with
    | nil => exact absurd hsp (splitCh_ne_nil _ _)
    | cons e rest =>
      cases rest with
      | nil =>
        rw [hsp] at h
        exact absurd h (by simp)
      | cons sig tail =>
        rw [hsp] at h
        simp only [] at h
        rw [checkSignedEnvelope,
          if_neg (by simp [List.append_eq_nil] : ¬(t ++ '.' :: s = [])),
          splitCh_append_sep, hsp]
        simp only [List.cons_append]
        exact h

theorem verifySessionToken_append (sign : List Char → List Char) (t s : List Char)
    (now : Int) (p : Json) (h : verifySessionToken sign t now = some p) :
    verifySessionToken sign (t ++ '.' :: s) now = some p := by
  rw [verifySessionToken] at h ⊢
  cases he : checkSignedEnvelope sign t with
  | none => rw [he] at h; exact absurd h (by simp)
  | some payload =>
    rw [he] at h
    rw [checkSignedEnvelope_append sign t s payload he]
    exact h

theorem verifyEmailVerificationToken_append (sign : List Char → List Char) (t s : List Char)
    (now : Int) (p : Json) (h : verifyEmailVerificationToken sign t now = some p) :
    verifyEmailVerificationToken sign (t ++ '.' :: s) now = some p := by
  rw [verifyEmailVerificationToken] at h ⊢
  cases he : checkSignedEnvelope sign t with
  | none => rw [he] at h; exact absurd h (by simp)
  | some payload =>
    rw [he] at h
    rw [checkSignedEnvelope_append sign t s payload he]
    exact h

theorem verifyResetPasswordToken_append (sign : List Char → List Char) (t s : List Char)
    (now : Int) (p : Json) (h : verifyResetPasswordToken sign t now = some p) :
    verifyResetPasswordToken sign (t ++ '.' :: s) now = some p := by
  rw [verifyResetPasswordToken] at h ⊢
  cases he : checkSignedEnvelope sign t with
  | none => rw [he] at h; exact absurd h (by simp)
  | some payload =>
    rw [he] at h
    rw [checkSignedEnvelope_append sign t s payload he]
    exact h

theorem checkSignedEnvelope_inv (sign : List Char → List Char) (token : List Char)
    (p : Json) (h : checkSignedEnvelope sign token = some p) :
    token ≠ [] ∧ ∃ encoded signature tail,
      splitCh '.' token = encoded :: signature :: tail ∧ encoded ≠ [] ∧ signature ≠ [] ∧
      utf8Encode signature = utf8Encode (sign encoded) ∧
      (b64UrlDecodeStr encoded).bind parseJson = some p := by
  rw [checkSignedEnvelope] at h
  by_cases ht : token = []
  · rw [if_pos ht] at h
    exact absurd h (by simp)
  · rw [if_neg ht] at h
    refine ⟨ht, ?_⟩
    cases hsp : splitCh '.' token with
    | nil => exact absurd hsp (splitCh_ne_nil _ _)
    | cons e rest =>
      cases rest with
      | nil =>
        rw [hsp] at h
        exact absurd h (by simp)
      | cons sig tail =>
        rw [hsp] at h
        simp only [] at h
        by_cases he : e = []
        · rw [if_pos he] at h
          exact absurd h (by simp)
        · rw [if_neg he] at h
          by_cases hs : sig = []
          · rw [if_pos hs] at h
            exact absurd h (by simp)
          · rw [if_neg hs] at h
            by_cases hlen : (utf8Encode sig).length ≠ (utf8Encode (sign e)).length
            · rw [if_pos hlen] at h
              exact absurd h (by simp)
            · rw [if_neg hlen] at h
              by_cases heq : utf8Encode sig ≠ utf8Encode (sign e)
              · rw [if_pos heq] at h
                exact absurd h (by simp)
              · rw [if_neg heq] at h
                exact ⟨e, sig, tail, rfl, he, hs, not_not.mp heq, h⟩

/-! ### Origin guard facts -/

theorem hasSameOrigin_no_origin (parseUrlHost : List Char → Option (List Char))
    (req : ReqHeaders) (h : req.origin = none) : hasSameOrigin parseUrlHost req = true := by
  rw [hasSameOrigin, h]

theorem hasSameOrigin_unparsable (parseUrlHost : List Char → Option (List Char))
    (req : ReqHeaders) (o : List Char) (ho : req.origin = some o) (hne : o ≠ [])
    (hp : parseUrlHost o = none) : hasSameOrigin parseUrlHost req = false := by
  rw [hasSameOrigin, ho]
  simp only [if_neg hne, hp]

theorem hasSameOrigin_member (parseUrlHost : List Char → Option (List Char))
    (req : ReqHeaders) (o u : List Char) (ho : req.origin = some o) (hne : o ≠ [])
    (hp : parseUrlHost o = some u) (hmem : jsLower u ∈ allowedHosts req) :
    hasSameOrigin parseUrlHost req = true := by
  rw [hasSameOrigin, ho]
  simp only [if_neg hne, hp]
  rw [if_neg (by
    intro hnil
    rw [hnil] at hmem
    simp at hmem)]
  simp [hmem]

theorem hasSameOrigin_host_match (parseUrlHost : List Char → Option (List Char))
    (req : ReqHeaders) (o u h : List Char) (ho : req.origin = some o) (hne : o ≠ [])
    (hp : parseUrlHost o = some u) (hh : req.host = some h) (hhne : h ≠ [])
    (heq : jsLower u = jsLower (jsTrim h)) : hasSameOrigin parseUrlHost req = true := by
  apply hasSameOrigin_member parseUrlHost req o u ho hne hp
  rw [heq, allowedHosts, hh]
  simp [hhne]

theorem hasSameOrigin_not_member (parseUrlHost : List Char → Option (List Char))
    (req : ReqHeaders) (o u : List Char) (ho : req.origin = some o) (hne : o ≠ [])
    (hp : parseUrlHost o = some u) (hnonempty : allowedHosts req ≠ [])
    (hmem : jsLower u ∉ allowedHosts req) : hasSameOrigin parseUrlHost req = false := by
  rw [hasSameOrigin, ho]
  simp only [if_neg hne, hp]
  rw [if_neg hnonempty]
  simp [hmem]

/-! ### Secret resolution facts -/

/-- Falsiness of `value && value.trim()` for an optional environment
variable: unset, empty, or blank after trimming. -/
def isBlankField (v : Option (List Char)) : Bool :=
  match v with
  | none => true
  | some s => jsTrim s = []

theorem jsTrim_nil : jsTrim [] = [] := rfl

def isErr {α β : Type} (e : Except α β) : Bool :=
  match e with
  | .error _ => true
  | .ok _ => false

theorem joinPipe_eq_nil (l : List (List Char)) (h : ∀ x ∈ l, x ≠ []) :
    joinPipe l = [] ↔ l = [] := by
  cases l with
  | nil => simp [joinPipe]
  | cons x xs =>
    cases xs with
    | nil =>
      rw [joinPipe]
      simp [h x (by simp)]
    | cons y ys =>
      rw [joinPipe]
      constructor
      · intro hx
        exact absurd (List.append_eq_nil.mp hx).2 (by simp)
      · intro hx
        simp at hx

theorem keptFields_spec (env : Env) :
    ((vercelFields env).filterMap
      (fun v => match v with
        | none => none
        | some s => if s ≠ [] ∧ jsTrim s ≠ [] then some s else none) = [] ↔
      ∀ v ∈ vercelFields env, isBlankField v = true) := by
  rw [List.filterMap_eq_nil_iff]
  constructor
  · intro h v hv
    have hthis := h v hv
    cases v with
    | none => rfl
    | some s =>
      simp only [] at hthis
      simp only [isBlankField]
      by_cases hs : s ≠ [] ∧ jsTrim s ≠ []
      · rw [if_pos hs] at hthis
        simp at hthis
      · simp only [not_and, not_not] at hs
        by_cases hsnil : s = []
        · subst hsnil
          simp [jsTrim_nil]
        · simp [hs hsnil]
  · intro h v hv
    have hthis := h v hv
    cases v with
    | none => rfl
    | some s =>
      simp only [isBlankField, decide_eq_true_eq] at hthis
      simp only []
      rw [if_neg (by simp [hthis])]

theorem keptFields_ne_nil_mem (env : Env) :
    ∀ x ∈ (vercelFields env).filterMap
      (fun v => match v with
        | none => none
        | some s => if s ≠ [] ∧ jsTrim s ≠ [] then some s else none), x ≠ [] := by
  intro x hx
  rw [List.mem_filterMap] at hx
  obtain ⟨v, _, hv⟩ := hx
  cases v with
  | none => simp at hv
  | some s =>
    simp only [] at hv
    by_cases hs : s ≠ [] ∧ jsTrim s ≠ []
    · rw [if_pos hs] at hv
      simp at hv
      subst hv
      exact hs.1
    · rw [if_neg hs] at hv
      simp at hv

theorem getSessionSecret_explicit (sha256 : List Char → List Char) (env : Env)
    (s : List Char) (h : env.authSecret = some s) (hs : jsTrim s ≠ []) :
    getSessionSecret sha256 env = .ok (jsTrim s) := by
  rw [getSessionSecret, h]
  simp only [Option.map_some']
  rw [if_pos hs]

theorem getSessionSecret_blankAuth (sha256 : List Char → List Char) (env : Env)
    (hblank : isBlankField env.authSecret = true) :
    getSessionSecret sha256 env = getSessionSecretFallback sha256 env := by
  rw [getSessionSecret]
  cases ha : env.authSecret with
  | none => rfl
  | some s =>
    rw [ha] at hblank
    simp only [isBlankField, decide_eq_true_eq] at hblank
    simp only [Option.map_some']
    rw [if_neg (by simp [hblank])]

theorem getSessionSecret_dev (sha256 : List Char → List Char) (env : Env)
    (hblank : isBlankField env.authSecret = true)
    (hprod : env.nodeEnv ≠ some "production".data) :
    getSessionSecret sha256 env = .ok "change-this-secret-in-production".data := by
  rw [getSessionSecret_blankAuth sha256 env hblank, getSessionSecretFallback, if_pos hprod]

theorem getSessionSecret_vercel (sha256 : List Char → List Char) (env : Env)
    (hblank : isBlankField env.authSecret = true)
    (hprod : env.nodeEnv = some "production".data)
    (hkept : ¬∀ v ∈ vercelFields env, isBlankField v = true) :
    ∃ entropy, entropy ≠ [] ∧
      getSessionSecret sha256 env = .ok (sha256 ("livestation:".data ++ entropy)) := by
  rw [getSessionSecret_blankAuth sha256 env hblank, getSessionSecretFallback,
    if_neg (by simp [hprod])]
  simp only []
  set kept := (vercelFields env).filterMap
    (fun v => match v with
      | none => none
      | some s => if s ≠ [] ∧ jsTrim s ≠ [] then some s else none) with hkeptdef
  have hknil : kept ≠ [] := by
    intro hk
    exact hkept ((keptFields_spec env).mp (by rw [← hkeptdef]; exact hk))
  have hjoin : joinPipe kept ≠ [] := by
    intro hj
    exact hknil ((joinPipe_eq_nil kept (by rw [hkeptdef]; exact keptFields_ne_nil_mem env)).mp hj)
  rw [if_pos hjoin]
  exact ⟨joinPipe kept, hjoin, rfl⟩

theorem getSessionSecretFallback_error_iff (sha256 : List Char → List Char) (env : Env) :
    isErr (getSessionSecretFallback sha256 env) = true ↔
      (env.nodeEnv = some "production".data ∧
        ∀ v ∈ vercelFields env, isBlankField v = true) := by
  rw [getSessionSecretFallback]
  by_cases hp : env.nodeEnv ≠ some "production".data
  · rw [if_pos hp]
    simp [isErr, hp]
  · push_neg at hp
    rw [if_neg (by simp [hp])]
    simp only []
    set kept := (vercelFields env).filterMap
      (fun v => match v with
        | none => none
        | some s => if s ≠ [] ∧ jsTrim s ≠ [] then some s else none) with hkeptdef
    by_cases hj : joinPipe kept ≠ []
    · rw [if_pos hj]
      simp only [isErr]
      constructor
      · intro hfalse
        simp at hfalse
      · intro ⟨_, hall⟩
        exact absurd ((joinPipe_eq_nil kept
          (by rw [hkeptdef]; exact keptFields_ne_nil_mem env)).mpr
          (by rw [hkeptdef]; exact (keptFields_spec env).mpr hall)) hj
    · rw [if_neg hj]
      simp only [isErr, true_iff]
      push_neg at hj
      refine ⟨hp, ?_⟩
      exact (keptFields_spec env).mp
        (by rw [← hkeptdef]
            exact (joinPipe_eq_nil kept
              (by rw [hkeptdef]; exact keptFields_ne_nil_mem env)).mp hj)

theorem getSessionSecret_error_iff (sha256 : List Char → List Char) (env : Env) :
    isErr (getSessionSecret sha256 env) = true ↔
      (env.nodeEnv = some "production".data ∧ isBlankField env.authSecret = true ∧
        ∀ v ∈ vercelFields env, isBlankField v = true) := by
  by_cases hb : isBlankField env.authSecret = true
  · rw [getSessionSecret_blankAuth sha256 env hb, getSessionSecretFallback_error_iff]
    constructor
    · intro ⟨h1, h2⟩
      exact ⟨h1, hb, h2⟩
    · intro ⟨h1, _, h2⟩
      exact ⟨h1, h2⟩
  · cases ha : env.authSecret with
    | none => rw [ha] at hb; exact absurd rfl hb
    | some s =>
      rw [ha] at hb
      simp only [isBlankField, decide_eq_true_eq] at hb
      rw [getSessionSecret_explicit sha256 env s ha hb]
      simp only [isErr]
      constructor
      · intro hfalse
        simp at hfalse
      · intro hcon
        have hcon2 := hcon.2.1
        simp only [isBlankField, decide_eq_true_eq] at hcon2
        exact absurd hcon2 hb

/-! ### Password hashing facts -/

theorem bytesToHex_ne_nil (bs : List Nat) (h : bs ≠ []) : bytesToHex bs ≠ [] := by
  cases bs with
  | nil => exact absurd rfl h
  | cons b rest =>
    rw [bytesToHex]
    simp

theorem verifyPassword_hashPassword (scrypt : List Char → List Char → Nat → List Nat)
    (hlen : ∀ p s n, (scrypt p s n).length = n)
    (hbytes : ∀ p s n, ∀ b ∈ scrypt p s n, b < 256)
    (password salt : List Char) (hsne : salt ≠ []) (hcolon : ':' ∉ salt) :
    verifyPassword scrypt password (hashPassword scrypt password salt) = true := by
  have hkeyne : scrypt password salt 64 ≠ [] := by
    intro h
    have hl := hlen password salt 64
    rw [h] at hl
    simp at hl
  have hexne : bytesToHex (scrypt password salt 64) ≠ [] := bytesToHex_ne_nil _ hkeyne
  rw [hashPassword, verifyPassword, splitCh_append_sep, splitCh_of_not_mem ':' salt hcolon,
    splitCh_of_not_mem ':' _ (colon_not_mem_bytesToHex _)]
  simp only [List.singleton_append]
  rw [if_neg hsne, if_neg hexne,
    hexDecode_bytesToHex (scrypt password salt 64) (hbytes password salt 64)]
  rw [if_neg (by simp)]
  simp

theorem hashPassword_inj (scrypt : List Char → List Char → Nat → List Nat)
    (password s1 s2 : List Char) (hc1 : ':' ∉ s1) (hc2 : ':' ∉ s2) (hne : s1 ≠ s2) :
    hashPassword scrypt password s1 ≠ hashPassword scrypt password s2 := by
  intro he
  apply hne
  have hsp := congrArg (splitCh ':') he
  rw [hashPassword, hashPassword, splitCh_append_sep, splitCh_append_sep,
    splitCh_of_not_mem ':' s1 hc1, splitCh_of_not_mem ':' s2 hc2] at hsp
  simp only [List.singleton_append, List.cons.injEq] at hsp
  exact hsp.1

theorem verifyPassword_no_separator (scrypt : List Char → List Char → Nat → List Nat)
    (password record : List Char) (hnc : ':' ∉ record) :
    verifyPassword scrypt password record = false := by
  rw [verifyPassword, splitCh_of_not_mem ':' record hnc]

theorem verifyPassword_empty_part (scrypt : List Char → List Char → Nat → List Nat)
    (password record : List Char) (salt hex : List Char) (tail : List (List Char))
    (hsp : splitCh ':' record = salt :: hex :: tail) (hor : salt = [] ∨ hex = []) :
    verifyPassword scrypt password record = false := by
  rw [verifyPassword, hsp]
  simp only []
  by_cases hs : salt = []
  · rw [if_pos hs]
  · rw [if_neg hs]
    rcases hor with h | h
    · exact absurd h hs
    · rw [if_pos h]

/-! ### Validator characterisations -/

theorem verifySessionToken_iff (sign : List Char → List Char) (token : List Char)
    (now : Int) (p : Json) :
    verifySessionToken sign token now = some p ↔
      (checkSignedEnvelope sign token = some p ∧
        jsTruthyField (getField p "email".data) = true ∧
        jsTruthyField (getField p "exp".data) = true ∧
        jsLtNum (getField p "exp".data) now = false) := by
  rw [verifySessionToken]
  cases he : checkSignedEnvelope sign token with
  | none => simp
  | some payload =>
    simp only [Option.some.injEq]
    constructor
    · intro h
      by_cases hc : (!jsTruthyField (getField payload "email".data) ||
          !jsTruthyField (getField payload "exp".data)) = true
      · rw [if_pos hc] at h
        exact absurd h (by simp)
      · rw [if_neg hc] at h
        by_cases hlt : jsLtNum (getField payload "exp".data) now = true
        · rw [if_pos hlt] at h
          exact absurd h (by simp)
        · rw [if_neg hlt] at h
          have hp : payload = p := Option.some.inj h
          subst hp
          simp only [Bool.or_eq_true, Bool.not_eq_true', not_or, Bool.not_eq_false] at hc
          simp only [Bool.not_eq_true] at hlt
          exact ⟨rfl, hc.1, hc.2, hlt⟩
    · rintro ⟨hpe, h1, h2, h3⟩
      subst hpe
      rw [if_neg (by simp [h1, h2]), if_neg (by simp [h3])]

theorem verifyEmailVerificationToken_iff (sign : List Char → List Char) (token : List Char)
    (now : Int) (p : Json) :
    verifyEmailVerificationToken sign token now = some p ↔
      (checkSignedEnvelope sign token = some p ∧
        jsStrictEqStr (getField p "typ".data) "verify_email".data = true ∧
        jsTruthyField (getField p "email".data) = true ∧
        jsTruthyField (getField p "username".data) = true ∧
        jsTruthyField (getField p "passwordHash".data) = true ∧
        jsTruthyField (getField p "exp".data) = true ∧
        jsLtNum (getField p "exp".data) now = false) := by
  rw [verifyEmailVerificationToken]
  cases he : checkSignedEnvelope sign token with
  | none => simp
  | some payload =>
    simp only [Option.some.injEq]
    constructor
    · intro h
      by_cases hc : (!jsStrictEqStr (getField payload "typ".data) "verify_email".data ||
          !jsTruthyField (getField payload "email".data) ||
          !jsTruthyField (getField payload "username".data) ||
          !jsTruthyField (getField payload "passwordHash".data) ||
          !jsTruthyField (getField payload "exp".data)) = true
      · rw [if_pos hc] at h
        exact absurd h (by simp)
      · rw [if_neg hc] at h
        by_cases hlt : jsLtNum (getField payload "exp".data) now = true
        · rw [if_pos hlt] at h
          exact absurd h (by simp)
        · rw [if_neg hlt] at h
          have hp : payload = p := Option.some.inj h
          subst hp
          simp only [Bool.or_eq_true, Bool.not_eq_true', not_or, Bool.not_eq_false] at hc
          simp only [Bool.not_eq_true] at hlt
          exact ⟨rfl, hc.1.1.1.1, hc.1.1.1.2, hc.1.1.2, hc.1.2, hc.2, hlt⟩
    · rintro ⟨hpe, h0, h1, h2, h3, h4, h5⟩
      subst hpe
      rw [if_neg (by simp [h0, h1, h2, h3, h4]), if_neg (by simp [h5])]

theorem verifyResetPasswordToken_iff (sign : List Char → List Char) (token : List Char)
    (now : Int) (p : Json) :
    verifyResetPasswordToken sign token now = some p ↔
      (checkSignedEnvelope sign token = some p ∧
        jsStrictEqStr (getField p "typ".data) "reset_password".data = true ∧
        jsTruthyField (getField p "email".data) = true ∧
        jsTruthyField (getField p "exp".data) = true ∧
        jsLtNum (getField p "exp".data) now = false) := by
  rw [verifyResetPasswordToken]
  cases he : checkSignedEnvelope sign token with
  | none => simp
  | some payload =>
    simp only [Option.some.injEq]
    constructor
    · intro h
      by_cases hc : (!jsStrictEqStr (getField payload "typ".data) "reset_password".data ||
          !jsTruthyField (getField payload "email".data) ||
          !jsTruthyField (getField payload "exp".data)) = true
      · rw [if_pos hc] at h
        exact absurd h (by simp)
      · rw [if_neg hc] at h
        by_cases hlt : jsLtNum (getField payload "exp".data) now = true
        · rw [if_pos hlt] at h
          exact absurd h (by simp)
        · rw [if_neg hlt] at h
          have hp : payload = p := Option.some.inj h
          subst hp
          simp only [Bool.or_eq_true, Bool.not_eq_true', not_or, Bool.not_eq_false] at hc
          simp only [Bool.not_eq_true] at hlt
          exact ⟨rfl, hc.1.1, hc.1.2, hc.2, hlt⟩
    · rintro ⟨hpe, h0, h1, h2, h3⟩
      subst hpe
      rw [if_neg (by simp [h0, h1, h2]), if_neg (by simp [h3])]

/-! ### Concrete instances used by the closed witnesses and counterexamples -/

/-- A concrete stand-in for the HMAC-SHA256 signer: deterministic,
dot-free, non-empty. -/
def demoSign (s : List Char) : List Char := "SIGNATURE".data

theorem demoSign_dot : ∀ s, '.' ∉ demoSign s := fun _ => by unfold demoSign; decide

theorem demoSign_ne : ∀ s, demoSign s ≠ [] := fun _ => by unfold demoSign; decide

/-- A concrete stand-in for scrypt: 64 identical bytes. -/
def demoScrypt (password salt : List Char) (n : Nat) : List Nat := List.replicate n 7

theorem demoScrypt_len : ∀ p s n, (demoScrypt p s n).length = n :=
  fun _ _ n => List.length_replicate n 7

theorem demoScrypt_bytes : ∀ p s n, ∀ b ∈ demoScrypt p s n, b < 256 := by
  intro p s n b hb
  have hb7 : b = 7 := List.eq_of_mem_replicate hb
  omega

/-- A concrete stand-in for SHA-256 hex digesting. -/
def demoSha (s : List Char) : List Char := s

/-- A concrete stand-in for `new URL(origin).host`. -/
def demoParseUrlHost (o : List Char) : Option (List Char) :=
  if o = "https://a.example:8443/x".data then some "a.example:8443".data else none

/-- A correctly signed payload whose `email` field has the wrong type
(a number) and whose `exp` is far in the future. -/
def wrongTypedPayload : Json := .obj [("email".data, .num 5), ("exp".data, .num 9999999999)]

/-! ### The claims -/

/-- C1, amended.  The claim said every validator checks the payload kind,
so `verifySessionToken` returns none on a reset-password token.  In the
code only the e-mail-verification and reset-password validators check
`typ`; `verifySessionToken` checks just e-mail/expiry truthiness and
expiry, so a correctly signed, unexpired reset-password token whose
normalised e-mail is non-empty is ACCEPTED by the session validator,
which returns the reset payload. -/
theorem claim_C1_session_accepts_reset_token (sign : List Char → List Char)
    (hdot : ∀ s, '.' ∉ sign s) (hne : ∀ s, sign s ≠ [])
    (email : List Char) (now t : Int) (hemail : jsLower (jsTrim email) ≠ [])
    (hexp0 : now + RESET_PASSWORD_TTL_SECONDS ≠ 0)
    (hexp : ¬(now + RESET_PASSWORD_TTL_SECONDS < t)) :
    verifySessionToken sign (createResetPasswordToken sign email now) t =
      some (resetPasswordPayload (jsLower (jsTrim email))
        (now + RESET_PASSWORD_TTL_SECONDS)) :=
  verifySessionToken_acceptsResetToken sign hdot hne email now t hemail hexp0 hexp

/-- C1 witness: the amended theorem at a concrete signer, e-mail and
times. -/
theorem claim_C1_witness :
    verifySessionToken demoSign (createResetPasswordToken demoSign "a@b.c".data 0) 100 =
      some (resetPasswordPayload (jsLower (jsTrim "a@b.c".data))
        (0 + RESET_PASSWORD_TTL_SECONDS)) :=
  claim_C1_session_accepts_reset_token demoSign demoSign_dot demoSign_ne "a@b.c".data 0 100
    (by decide) (by decide) (by decide)

/-- C1 counterexample: the claim as stated is false — `verifySessionToken`
does not return none on an unexpired reset-password token. -/
theorem claim_C1_counterexample :
    verifySessionToken demoSign (createResetPasswordToken demoSign "a@b.c".data 0) 100 ≠
      none := by
  rw [verifySessionToken_acceptsResetToken demoSign demoSign_dot demoSign_ne "a@b.c".data 0 100
    (by decide) (by decide) (by decide)]
  simp

/-- C2, amended.  The claim said `verifySessionToken` demands
`exp > now`, rejecting a token with `exp = now`.  In the code the
rejection test is `payload.exp < now`, so verification returns the payload
exactly when the envelope (signature + decode) succeeds, the e-mail and
expiry fields are truthy, and the expiry is NOT strictly below `now`;
in particular `exp = now` is accepted. -/
theorem claim_C2_session_verification_characterisation (sign : List Char → List Char)
    (token : List Char) (now : Int) (p : Json) :
    verifySessionToken sign token now = some p ↔
      (checkSignedEnvelope sign token = some p ∧
        jsTruthyField (getField p "email".data) = true ∧
        jsTruthyField (getField p "exp".data) = true ∧
        jsLtNum (getField p "exp".data) now = false) :=
  verifySessionToken_iff sign token now p

/-- C2 witness: the characterisation applied to a concrete freshly issued
session token. -/
theorem claim_C2_witness :
    verifySessionToken demoSign (createSessionToken demoSign "a".data 0) 0 =
      some (sessionPayload "a".data (0 + SESSION_TTL_SECONDS)) :=
  (claim_C2_session_verification_characterisation demoSign
      (createSessionToken demoSign "a".data 0) 0
      (sessionPayload "a".data (0 + SESSION_TTL_SECONDS))).mpr
    ⟨checkSignedEnvelope_signedToken demoSign demoSign_dot demoSign_ne _,
      by decide, by decide, by decide⟩

/-- C2 counterexample: a correctly signed session token whose expiry
equals the verification time is accepted, where the claim says it is
rejected. -/
theorem claim_C2_counterexample :
    verifySessionToken demoSign (createSessionToken demoSign "a@b.c".data 0)
      (0 + SESSION_TTL_SECONDS) ≠ none := by
  rw [verifySessionToken_createSessionToken demoSign demoSign_dot demoSign_ne "a@b.c".data 0
    (0 + SESSION_TTL_SECONDS) (by decide) (by decide) (by decide)]
  simp

/-- C3: decode-of-encode round trip.  For each of the three kinds, with a
fixed signer and a fixed current time, verifying the token the matching
issuer produced returns exactly the issuer's payload, provided the
payload is valid: non-empty fields (after the issuer's normalisation) and
the issuance time non-negative (so the expiry is non-zero and in the
future). -/
theorem claim_C3_round_trip (sign : List Char → List Char)
    (hdot : ∀ s, '.' ∉ sign s) (hne : ∀ s, sign s ≠ []) (now : Int) (hnow : 0 ≤ now)
    (email1 : List Char) (h1 : email1 ≠ [])
    (email2 username passwordHash : List Char)
    (h2 : jsLower (jsTrim email2) ≠ []) (h3 : jsLower (jsTrim username) ≠ [])
    (h4 : passwordHash ≠ [])
    (email3 : List Char) (h5 : jsLower (jsTrim email3) ≠ []) :
    verifySessionToken sign (createSessionToken sign email1 now) now =
        some (sessionPayload email1 (now + SESSION_TTL_SECONDS)) ∧
      verifyEmailVerificationToken sign
          (createEmailVerificationToken sign email2 username passwordHash now) now =
        some (emailVerificationPayload (jsLower (jsTrim email2)) (jsLower (jsTrim username))
          passwordHash (now + EMAIL_VERIFICATION_TTL_SECONDS)) ∧
      verifyResetPasswordToken sign (createResetPasswordToken sign email3 now) now =
        some (resetPasswordPayload (jsLower (jsTrim email3))
          (now + RESET_PASSWORD_TTL_SECONDS)) := by
  refine ⟨?_, ?_, ?_⟩
  · exact verifySessionToken_createSessionToken sign hdot hne email1 now now h1
      (by rw [SESSION_TTL_SECONDS]; omega) (by rw [SESSION_TTL_SECONDS]; omega)
  · exact verifyEmailVerificationToken_create sign hdot hne email2 username passwordHash now
      now h2 h3 h4 (by rw [EMAIL_VERIFICATION_TTL_SECONDS]; omega)
      (by rw [EMAIL_VERIFICATION_TTL_SECONDS]; omega)
  · exact verifyResetPasswordToken_create sign hdot hne email3 now now h5
      (by rw [RESET_PASSWORD_TTL_SECONDS]; omega)
      (by rw [RESET_PASSWORD_TTL_SECONDS]; omega)

/-- C3 witness: the round trip at concrete inputs. -/
theorem claim_C3_witness :
    verifySessionToken demoSign (createSessionToken demoSign "a@b.c".data 7) 7 =
        some (sessionPayload "a@b.c".data (7 + SESSION_TTL_SECONDS)) ∧
      verifyEmailVerificationToken demoSign
          (createEmailVerificationToken demoSign " A@B.c ".data " User9 ".data "h".data 7) 7 =
        some (emailVerificationPayload (jsLower (jsTrim " A@B.c ".data))
          (jsLower (jsTrim " User9 ".data)) "h".data (7 + EMAIL_VERIFICATION_TTL_SECONDS)) ∧
      verifyResetPasswordToken demoSign (createResetPasswordToken demoSign "a@b.c".data 7) 7 =
        some (resetPasswordPayload (jsLower (jsTrim "a@b.c".data))
          (7 + RESET_PASSWORD_TTL_SECONDS)) :=
  claim_C3_round_trip demoSign demoSign_dot demoSign_ne 7 (by decide)
    "a@b.c".data (by decide) " A@B.c ".data " User9 ".data "h".data (by decide) (by decide)
    (by decide) "a@b.c".data (by decide)

/-- C4: expiry is enforced independently of signature validity.  Any token
whose envelope verifies (correct signature, decodable payload) but whose
numeric expiry is strictly in the past is rejected by all three
validators. -/
theorem claim_C4_expired_token_rejected (sign : List Char → List Char) (token : List Char)
    (now : Int) (payload : Json) (e : Int)
    (henv : checkSignedEnvelope sign token = some payload)
    (hexp : getField payload "exp".data = some (.num e)) (hlt : e < now) :
    verifySessionToken sign token now = none ∧
      verifyEmailVerificationToken sign token now = none ∧
      verifyResetPasswordToken sign token now = none :=
  verify_expired_all_none sign token now payload e henv hexp hlt

/-- C4 witness: a concrete reset-password token, correctly signed, thirty
minutes old, verified long after expiry. -/
theorem claim_C4_witness :
    verifySessionToken demoSign (createResetPasswordToken demoSign "a@b.c".data 0) 999999 =
        none ∧
      verifyEmailVerificationToken demoSign
          (createResetPasswordToken demoSign "a@b.c".data 0) 999999 = none ∧
      verifyResetPasswordToken demoSign (createResetPasswordToken demoSign "a@b.c".data 0)
        999999 = none :=
  claim_C4_expired_token_rejected demoSign (createResetPasswordToken demoSign "a@b.c".data 0)
    999999 (resetPasswordPayload (jsLower (jsTrim "a@b.c".data))
      (0 + RESET_PASSWORD_TTL_SECONDS)) (0 + RESET_PASSWORD_TTL_SECONDS)
    (checkSignedEnvelope_signedToken demoSign demoSign_dot demoSign_ne _) rfl (by decide)

/-- C5, amended.  The claim said every malformed input — including wrong
field types — yields none.  The validators are total functions that raise
nothing, and a non-none result does imply the token was structurally
well-formed (non-empty, a dot-split with non-empty payload and signature
segments, a signature equal to the recomputation, a decodable payload) —
so missing separators, empty segments, undecodable or unparsable payloads
and mismatching signatures all yield the none sentinel.  But the field
checks are truthiness checks, not type checks: a correctly signed payload
with wrong-typed yet truthy fields that passes the expiry comparison is
accepted (see the counterexample, a numeric `email`). -/
theorem claim_C5_nonnone_implies_wellformed (sign : List Char → List Char)
    (token : List Char) (now : Int) (p : Json) :
    (verifySessionToken sign token now = some p →
        token ≠ [] ∧ ∃ encoded signature tail,
          splitCh '.' token = encoded :: signature :: tail ∧ encoded ≠ [] ∧ signature ≠ [] ∧
          utf8Encode signature = utf8Encode (sign encoded) ∧
          (b64UrlDecodeStr encoded).bind parseJson = some p) ∧
      (verifyEmailVerificationToken sign token now = some p →
        token ≠ [] ∧ ∃ encoded signature tail,
          splitCh '.' token = encoded :: signature :: tail ∧ encoded ≠ [] ∧ signature ≠ [] ∧
          utf8Encode signature = utf8Encode (sign encoded) ∧
          (b64UrlDecodeStr encoded).bind parseJson = some p) ∧
      (verifyResetPasswordToken sign token now = some p →
        token ≠ [] ∧ ∃ encoded signature tail,
          splitCh '.' token = encoded :: signature :: tail ∧ encoded ≠ [] ∧ signature ≠ [] ∧
          utf8Encode signature = utf8Encode (sign encoded) ∧
          (b64UrlDecodeStr encoded).bind parseJson = some p) := by
  refine ⟨?_, ?_, ?_⟩
  · intro h
    exact checkSignedEnvelope_inv sign token p
      ((verifySessionToken_iff sign token now p).mp h).1
  · intro h
    exact checkSignedEnvelope_inv sign token p
      ((verifyEmailVerificationToken_iff sign token now p).mp h).1
  · intro h
    exact checkSignedEnvelope_inv sign token p
      ((verifyResetPasswordToken_iff sign token now p).mp h).1

/-- C5 witness: the well-formedness consequence at a concrete accepted
session token. -/
theorem claim_C5_witness :
    (createSessionToken demoSign "a".data 0) ≠ [] ∧ ∃ encoded signature tail,
      splitCh '.' (createSessionToken demoSign "a".data 0) =
        encoded :: signature :: tail ∧ encoded ≠ [] ∧ signature ≠ [] ∧
      utf8Encode signature = utf8Encode (demoSign encoded) ∧
      (b64UrlDecodeStr encoded).bind parseJson =
        some (sessionPayload "a".data (0 + SESSION_TTL_SECONDS)) :=
  (claim_C5_nonnone_implies_wellformed demoSign (createSessionToken demoSign "a".data 0) 0
      (sessionPayload "a".data (0 + SESSION_TTL_SECONDS))).1
    (verifySessionToken_createSessionToken demoSign demoSign_dot demoSign_ne "a".data 0 0
      (by decide) (by decide) (by decide))

/-- C5 counterexample: a correctly signed token whose `email` field is a
number (wrong type, but truthy) is accepted by `verifySessionToken`,
where the claim says wrong field types yield none. -/
theorem claim_C5_counterexample :
    verifySessionToken demoSign (signedToken demoSign wrongTypedPayload) 100 ≠ none := by
  have h : verifySessionToken demoSign (signedToken demoSign wrongTypedPayload) 100 =
      some wrongTypedPayload :=
    (verifySessionToken_iff demoSign (signedToken demoSign wrongTypedPayload) 100
        wrongTypedPayload).mpr
      ⟨checkSignedEnvelope_signedToken demoSign demoSign_dot demoSign_ne _,
        by decide, by decide, by decide⟩
  rw [h]
  simp

/-- C6: the origin guard.  With `parseUrlHost` modelling `new URL(..).host`:
no Origin header means same-origin; an Origin whose host (lowercased)
equals the trimmed lowercased non-empty Host header is accepted; an Origin
whose lowercased host is outside the non-empty acceptable-host set (Host
plus every non-blank comma-separated forwarded host) is rejected; an
unparsable Origin is rejected. -/
theorem claim_C6_origin_guard (parseUrlHost : List Char → Option (List Char))
    (req : ReqHeaders) :
    (req.origin = none → hasSameOrigin parseUrlHost req = true) ∧
      (∀ o u h, req.origin = some o → o ≠ [] → parseUrlHost o = some u →
        req.host = some h → h ≠ [] → jsLower u = jsLower (jsTrim h) →
        hasSameOrigin parseUrlHost req = true) ∧
      (∀ o u, req.origin = some o → o ≠ [] → parseUrlHost o = some u →
        allowedHosts req ≠ [] → jsLower u ∉ allowedHosts req →
        hasSameOrigin parseUrlHost req = false) ∧
      (∀ o, req.origin = some o → o ≠ [] → parseUrlHost o = none →
        hasSameOrigin parseUrlHost req = false) := by
  refine ⟨?_, ?_, ?_, ?_⟩
  · exact hasSameOrigin_no_origin parseUrlHost req
  · intro o u h ho hne hp hh hhne heq
    exact hasSameOrigin_host_match parseUrlHost req o u h ho hne hp hh hhne heq
  · intro o u ho hne hp hnonempty hmem
    exact hasSameOrigin_not_member parseUrlHost req o u ho hne hp hnonempty hmem
  · intro o ho hne hp
    exact hasSameOrigin_unparsable parseUrlHost req o ho hne hp

/-- C6 witness: the four clauses at concrete requests. -/
theorem claim_C6_witness :
    hasSameOrigin demoParseUrlHost
        { origin := none, host := some "a.example:8443".data, xForwardedHost := none } =
      true ∧
    hasSameOrigin demoParseUrlHost
        { origin := some "https://a.example:8443/x".data,
          host := some " A.EXAMPLE:8443 ".data, xForwardedHost := none } = true ∧
    hasSameOrigin demoParseUrlHost
        { origin := some "https://a.example:8443/x".data, host := some "other.com".data,
          xForwardedHost := some "fwd.com, other2.com".data } = false ∧
    hasSameOrigin demoParseUrlHost
        { origin := some "nonsense".data, host := some "a.example:8443".data,
          xForwardedHost := none } = false := by
  refine ⟨?_, ?_, ?_, ?_⟩
  · exact (claim_C6_origin_guard demoParseUrlHost _).1 rfl
  · exact (claim_C6_origin_guard demoParseUrlHost _).2.1 "https://a.example:8443/x".data
      "a.example:8443".data " A.EXAMPLE:8443 ".data rfl (by decide) (by decide) rfl
      (by decide) (by decide)
  · exact (claim_C6_origin_guard demoParseUrlHost _).2.2.1 "https://a.example:8443/x".data
      "a.example:8443".data rfl (by decide) (by decide) (by decide) (by decide)
  · exact (claim_C6_origin_guard demoParseUrlHost _).2.2.2 "nonsense".data rfl (by decide)
      (by decide)

/-- C7: with the salt made an explicit input, hashing one password under
two different (non-empty, colon-free, as produced by the hex-encoded
random generator) salts yields two different stored records, and
verification of the original password succeeds against both. -/
theorem claim_C7_two_salts (scrypt : List Char → List Char → Nat → List Nat)
    (hlen : ∀ p s n, (scrypt p s n).length = n)
    (hbytes : ∀ p s n, ∀ b ∈ scrypt p s n, b < 256)
    (password s1 s2 : List Char) (h1 : s1 ≠ []) (h2 : s2 ≠ [])
    (hc1 : ':' ∉ s1) (hc2 : ':' ∉ s2) (hne : s1 ≠ s2) :
    hashPassword scrypt password s1 ≠ hashPassword scrypt password s2 ∧
      verifyPassword scrypt password (hashPassword scrypt password s1) = true ∧
      verifyPassword scrypt password (hashPassword scrypt password s2) = true :=
  ⟨hashPassword_inj scrypt password s1 s2 hc1 hc2 hne,
    verifyPassword_hashPassword scrypt hlen hbytes password s1 h1 hc1,
    verifyPassword_hashPassword scrypt hlen hbytes password s2 h2 hc2⟩

/-- C7 witness: concrete scrypt stand-in, password and salts. -/
theorem claim_C7_witness :
    hashPassword demoScrypt "pw9".data "aa".data ≠
        hashPassword demoScrypt "pw9".data "bb".data ∧
      verifyPassword demoScrypt "pw9".data (hashPassword demoScrypt "pw9".data "aa".data) =
        true ∧
      verifyPassword demoScrypt "pw9".data (hashPassword demoScrypt "pw9".data "bb".data) =
        true :=
  claim_C7_two_salts demoScrypt demoScrypt_len demoScrypt_bytes "pw9".data "aa".data
    "bb".data (by decide) (by decide) (by decide) (by decide) (by decide)

/-- C8: `verifyPassword` returns false (raising nothing — it is a total
function) on every stored record that has no colon separator, and on every
record whose salt part or key part is empty after splitting. -/
theorem claim_C8_verifyPassword_malformed (scrypt : List Char → List Char → Nat → List Nat)
    (password record : List Char) :
    (':' ∉ record → verifyPassword scrypt password record = false) ∧
      (∀ salt hex tail, splitCh ':' record = salt :: hex :: tail → salt = [] ∨ hex = [] →
        verifyPassword scrypt password record = false) := by
  constructor
  · intro hnc
    exact verifyPassword_no_separator scrypt password record hnc
  · intro salt hex tail hsp hor
    exact verifyPassword_empty_part scrypt password record salt hex tail hsp hor

/-- C8 witness: a record with no separator, and records with an empty salt
or key part. -/
theorem claim_C8_witness :
    verifyPassword demoScrypt "pw".data "nocolonhere".data = false ∧
      verifyPassword demoScrypt "pw".data ":keypart".data = false ∧
      verifyPassword demoScrypt "pw".data "saltpart:".data = false :=
  ⟨(claim_C8_verifyPassword_malformed demoScrypt "pw".data "nocolonhere".data).1 (by decide),
    (claim_C8_verifyPassword_malformed demoScrypt "pw".data ":keypart".data).2
      [] "keypart".data [] (by decide) (Or.inl rfl),
    (claim_C8_verifyPassword_malformed demoScrypt "pw".data "saltpart:".data).2
      "saltpart".data [] [] (by decide) (Or.inr rfl)⟩

/-- C9: secret resolution fails (with the fatal configuration error) if
and only if the environment is production, the explicit secret is absent
or blank after trimming, and every Vercel deployment-identity field is
absent or blank; otherwise it returns without raising: the trimmed
explicit secret when configured, the fixed development placeholder
outside production, and the SHA-256-derived fallback in production when
some deployment field is non-blank. -/
theorem claim_C9_secret_resolution (sha256 : List Char → List Char) (env : Env) :
    (isErr (getSessionSecret sha256 env) = true ↔
        (env.nodeEnv = some "production".data ∧ isBlankField env.authSecret = true ∧
          ∀ v ∈ vercelFields env, isBlankField v = true)) ∧
      (∀ s, env.authSecret = some s → jsTrim s ≠ [] →
        getSessionSecret sha256 env = .ok (jsTrim s)) ∧
      (isBlankField env.authSecret = true → env.nodeEnv ≠ some "production".data →
        getSessionSecret sha256 env = .ok "change-this-secret-in-production".data) ∧
      (isBlankField env.authSecret = true → env.nodeEnv = some "production".data →
        ¬(∀ v ∈ vercelFields env, isBlankField v = true) →
        ∃ entropy, entropy ≠ [] ∧
          getSessionSecret sha256 env = .ok (sha256 ("livestation:".data ++ entropy))) := by
  refine ⟨getSessionSecret_error_iff sha256 env, ?_, ?_, ?_⟩
  · intro s hs hst
    exact getSessionSecret_explicit sha256 env s hs hst
  · intro hb hp
    exact getSessionSecret_dev sha256 env hb hp
  · intro hb hp hk
    exact getSessionSecret_vercel sha256 env hb hp hk

/-- C9 witness: the fatal case and the three return cases at concrete
environments. -/
theorem claim_C9_witness :
    isErr (getSessionSecret demoSha
        { authSecret := none, nodeEnv := some "production".data,
          vercelDeploymentId := none, vercelGitCommitSha := none, vercelUrl := none,
          vercelProjectProductionUrl := none, vercelProjectId := none,
          vercelOrgId := none }) = true ∧
      getSessionSecret demoSha
          { authSecret := some " s3cret ".data, nodeEnv := some "production".data,
            vercelDeploymentId := none, vercelGitCommitSha := none, vercelUrl := none,
            vercelProjectProductionUrl := none, vercelProjectId := none,
            vercelOrgId := none } = .ok (jsTrim " s3cret ".data) ∧
      getSessionSecret demoSha
          { authSecret := none, nodeEnv := some "test".data,
            vercelDeploymentId := none, vercelGitCommitSha := none, vercelUrl := none,
            vercelProjectProductionUrl := none, vercelProjectId := none,
            vercelOrgId := none } = .ok "change-this-secret-in-production".data ∧
      ∃ entropy, entropy ≠ [] ∧
        getSessionSecret demoSha
            { authSecret := none, nodeEnv := some "production".data,
              vercelDeploymentId := some "dep1".data, vercelGitCommitSha := none,
              vercelUrl := none, vercelProjectProductionUrl := none,
              vercelProjectId := none, vercelOrgId := none } =
          .ok (demoSha ("livestation:".data ++ entropy)) := by
  refine ⟨?_, ?_, ?_, ?_⟩
  · exact (claim_C9_secret_resolution demoSha _).1.mpr ⟨rfl, by decide, by decide⟩
  · exact (claim_C9_secret_resolution demoSha _).2.1 " s3cret ".data rfl (by decide)
  · exact (claim_C9_secret_resolution demoSha _).2.2.1 (by decide) (by decide)
  · exact (claim_C9_secret_resolution demoSha _).2.2.2 (by decide) rfl (by decide)

/-- C10 (implicit): token splitting keeps only the first two dot-separated
segments, so appending `"." ++ s` to any token each validator accepts
leaves the result of all three validators unchanged. -/
theorem claim_C10_trailing_segments_ignored (sign : List Char → List Char)
    (t s : List Char) (now : Int) :
    (∀ p, verifySessionToken sign t now = some p →
        verifySessionToken sign (t ++ '.' :: s) now = some p) ∧
      (∀ p, verifyEmailVerificationToken sign t now = some p →
        verifyEmailVerificationToken sign (t ++ '.' :: s) now = some p) ∧
      (∀ p, verifyResetPasswordToken sign t now = some p →
        verifyResetPasswordToken sign (t ++ '.' :: s) now = some p) :=
  ⟨fun p h => verifySessionToken_append sign t s now p h,
    fun p h => verifyEmailVerificationToken_append sign t s now p h,
    fun p h => verifyResetPasswordToken_append sign t s now p h⟩

/-- C10 witness: a concrete session token with a trailing extra segment
still verifies to the same payload. -/
theorem claim_C10_witness :
    verifySessionToken demoSign
        (createSessionToken demoSign "a".data 0 ++ '.' :: "extra".data) 0 =
      some (sessionPayload "a".data (0 + SESSION_TTL_SECONDS)) :=
  (claim_C10_trailing_segments_ignored demoSign (createSessionToken demoSign "a".data 0)
      "extra".data 0).1
    (sessionPayload "a".data (0 + SESSION_TTL_SECONDS))
    (verifySessionToken_createSessionToken demoSign demoSign_dot demoSign_ne "a".data 0 0
      (by decide) (by decide) (by decide))

end LiveStation
